import Mathlib

/-!
# Verification of the OSINT-pipeline core (scoring, dedup/indexing, cache)

A shallow embedding, in Lean 4, of the scoring engine
(`src/utils/scoring.py`, `src/run_index.py`), the canonicalizer and
dedup helpers (`src/dedup_index/deduplicator.py`), the indexer
(`src/dedup_index/indexer.py`) and the on-disk cache
(`src/utils/cache.py`) of the repository, together with theorems that
settle the specification's claims about them.

Modelling conventions (applied consistently below):

* JSON-ish Python values are modelled by the inductive `EVal`
  (null / int / string / list / dict-as-association-list).  Numeric
  values are modelled as integers (the code paths under study only
  produce and consume integral values); `float(...)` string parsing is
  modelled for integer literals.
* Python timestamps are modelled at day granularity by integers, and
  the current wall-clock time is an explicit `now` parameter of every
  function that reads the clock in the source; `_parse_dt` is modelled
  as parsing an integer day index from a string.
* Code that can raise an uncaught exception is modelled with `Option`
  (`none` = the call raises); code whose `try/except` swallows an
  exception is modelled by the handler's result, as in the source.
* `round(x)` on floats is Python's round-half-to-even; the two places
  it is applied to non-integers use exact factors 0.25 and 0.2, where
  float and exact-rational rounding agree (no representable tie can
  arise for integer inputs), so it is modelled as exact rational
  rounding by `pyRoundDiv`.
* `round(log10(n+1) * c)` for c = 4.0, 3.2, 2.5 is modelled exactly
  over the rationals via `Nat.log` (the real-valued expression can
  never hit a tie, and the model uses the exact real semantics of the
  float expression).
* `hashlib.sha1(base).hexdigest()[:12]` in `make_cluster_id` is
  modelled as an injective fingerprint that keeps the preimage string:
  no claim inspects the hash value itself, only equality of cluster
  ids computed from equal fingerprint bases.
-/

/-- A Python/JSON value as manipulated by the pipeline: `None`, an
integer, a string, a list, or a dict (insertion-ordered association
list, as in Python). -/
inductive EVal where
  | null : EVal
  | num (n : ℤ) : EVal
  | str (s : String) : EVal
  | lst (xs : List EVal) : EVal
  | obj (fields : List (String × EVal)) : EVal

/-- An enrichment bundle: a Python dict keyed by provider name. -/
abbrev Enr := List (String × EVal)

/-- Association-list lookup: the value stored under key `k`
(Python `d[k]` / key presence). -/
def aLookup : Enr → String → Option EVal
  | [], _ => none
  | (k', v) :: t, k => if k' = k then some v else aLookup t k

/-- Python truthiness of a value (`bool(v)`). -/
def truthy : EVal → Bool
  | .null => false
  | .num n => n ≠ 0
  | .str s => s ≠ ""
  | .lst xs => ¬xs.isEmpty
  | .obj fs => ¬fs.isEmpty

/-- Python `d.get(k)`: `None` (here `none`) both when the key is
missing and when the stored value is `None`. -/
def pyGet (m : Enr) (k : String) : Option EVal :=
  match aLookup m k with
  | some .null => none
  | o => o

/-- Truthiness of a possibly-missing value (`bool(d.get(k))`). -/
def truthyO : Option EVal → Bool
  | some v => truthy v
  | none => false

/-- Python `a or b` over possibly-`None` values. -/
def pyOr (a b : Option EVal) : Option EVal :=
  if truthyO a then a else b

/-- Parse a (possibly signed) decimal integer literal, the fragment of
Python `int(str)` / `float(str)` exercised by the pipeline's data. -/
def parseIntStr (s : String) : Option ℤ :=
  let core (l : List Char) : Option ℤ :=
    if l = [] then none
    else if l.all (fun c => '0' ≤ c ∧ c ≤ '9') then
      some (l.foldl (fun a c => 10 * a + ((c.toNat : ℤ) - 48)) 0)
    else none
  match s.data with
  | '-' :: t => (core t).map (fun n => -n)
  | l => core l

/-- Python `int(v)` where it can raise: succeeds on ints and on
integer-literal strings, fails (`none` = exception) otherwise. -/
def pyIntOf : EVal → Option ℤ
  | .num n => some n
  | .str s => parseIntStr s
  | _ => none

/-- `_num(v, default)` from `utils/scoring.py` composed with `int(...)`:
`None` and unconvertible values fall back to the default. -/
def pyNum (o : Option EVal) (d : ℤ) : ℤ :=
  match o with
  | none => d
  | some v => (pyIntOf v).getD d

/-- Python `int(v)` where the surrounding source has no handler; the
theorems below restrict to inputs on which the source would not raise,
so the `0` default for the unrepresentable case is never relied on. -/
def pyIntE (v : EVal) : ℤ := (pyIntOf v).getD 0

/-- Python `str(v)` (rough rendering for non-scalar values; only ever
used as an injective-enough fingerprint component). -/
def pyStr : EVal → String
  | .null => "None"
  | .num n => toString n
  | .str s => s
  | .lst _ => "<list>"
  | .obj _ => "<dict>"

/-- `value or {}` followed by use as a dict: a missing/falsy value acts
as the empty dict, a dict is used as is, and a truthy non-dict raises
(`none`) at the first attribute access (`.get`). -/
def dictOr : Option EVal → Option Enr
  | none => some []
  | some (.obj fs) => some fs
  | some v => if truthy v then none else some []

/-- Round-half-to-even of `n / d` (for `d > 0`), matching Python
`round` on the exact rational value. -/
def pyRoundDiv (n d : ℤ) : ℤ :=
  let q := Int.fdiv n d
  let r := n - q * d
  if 2 * r < d then q
  else if d < 2 * r then q + 1
  else if q % 2 = 0 then q else q + 1

/-- `round(4.0 * log10 x)` for `x ≥ 1`, computed exactly:
`round(4·log10 x) = k ↔ x^8 ∈ [10^(2k-1), 10^(2k+1))`, and no integer
`x` can produce a tie. -/
def rnd4log10 (x : ℕ) : ℕ := (Nat.log 10 (x ^ 8) + 1) / 2

/-- `round(3.2 * log10 x)` for `x ≥ 1`, computed exactly via
`x^32 ∈ [10^(10k-5), 10^(10k+5))`. -/
def rnd32log10 (x : ℕ) : ℕ := (Nat.log 10 (x ^ 32) + 5) / 10

/-- `round(2.5 * log10 (a/b))` for `a ≥ b ≥ 1`, computed exactly via
`(a/b)^10 ∈ [10^(2k-1), 10^(2k+1))` and
`⌊log10 (a^10/b^10)⌋ = Nat.log 10 (a^10 / b^10)`. -/
def rnd25log10q (a b : ℕ) : ℕ := (Nat.log 10 (a ^ 10 / b ^ 10) + 1) / 2

/-- ASCII lowercasing of one character (Python `str.lower` on the
ASCII inputs this pipeline handles). -/
def lowerChar (c : Char) : Char :=
  if h : 65 ≤ c.toNat ∧ c.toNat ≤ 90 then
    Char.ofNatAux (c.toNat + 32) (by unfold Nat.isValidChar; left; omega)
  else c

/-- ASCII uppercasing of one character (Python `str.upper`). -/
def upperChar (c : Char) : Char :=
  if h : 97 ≤ c.toNat ∧ c.toNat ≤ 122 then
    Char.ofNatAux (c.toNat - 32) (by unfold Nat.isValidChar; left; omega)
  else c

/-- Python `s.lower()` (ASCII fragment). -/
def pyLower (s : String) : String := ⟨s.data.map lowerChar⟩

/-- Python `s.upper()` (ASCII fragment). -/
def pyUpper (s : String) : String := ⟨s.data.map upperChar⟩

/-- Python whitespace, as stripped by `str.strip()`. -/
def isPyWs (c : Char) : Bool :=
  c = ' ' ∨ c = '\t' ∨ c = '\n' ∨ c = '\r' ∨ c = '\x0b' ∨ c = '\x0c'

/-- Drop characters satisfying `p` from both ends of a list. -/
def trimBy (p : Char → Bool) (l : List Char) : List Char :=
  ((l.dropWhile p).reverse.dropWhile p).reverse

/-- Python `s.strip()`. -/
def pyStrip (s : String) : String := ⟨trimBy isPyWs s.data⟩

/-- Python `s.strip("/ ")`. -/
def stripSlashSpace (s : String) : String :=
  ⟨trimBy (fun c => c = '/' ∨ c = ' ') s.data⟩

/-- Substring containment, Python `needle in hay`. -/
def hasSub (hay needle : String) : Bool :=
  (List.range (hay.data.length + 1)).any
    (fun i => needle.data.isPrefixOf (hay.data.drop i))

/-- Membership of a key in a dict's key set (Python `k in d`). -/
def hasKey (m : Enr) (k : String) : Bool :=
  (aLookup m k).isSome

/-- An indicator record as handed to `canonicalize` / `Indexer.upsert`:
the `type`, `value`, `source` keys of the Python dict, with `none`
modelling a missing key. -/
structure Ioc where
  typ : Option String
  value : Option String
  source : Option String
  deriving DecidableEq

namespace Dedup

/-- Length of the URL scheme prefix (`http://` or `https://`). -/
def schemeLen (v : String) : ℕ :=
  if "http://".data.isPrefixOf v.data then 7 else 8

/-- The netloc `urlparse` extracts: everything after the `//` up to
the first `/`, `?` or `#`. -/
def netlocOf (v : String) : List Char :=
  (v.data.drop (schemeLen v)).takeWhile (fun c => ¬(c = '/' ∨ c = '?' ∨ c = '#'))

/-- The netloc-or-path extraction `urlparse(v)` performs on a string
that starts with `http://` or `https://`, per
`dedup_index/deduplicator.py`: the netloc if non-empty, else the path
(up to `?`/`#`).  `urlparse` raises (caught by the `except: pass`, so
`v` is kept) when brackets in the netloc are unbalanced. -/
def urlNetlocOrPath (v : String) : String :=
  if ('[' ∈ netlocOf v) ≠ (']' ∈ netlocOf v) then v
  else if netlocOf v ≠ [] then ⟨netlocOf v⟩
  else ⟨(v.data.drop (schemeLen v)).takeWhile (fun c => ¬(c = '?' ∨ c = '#'))⟩

/-- One octet of a dotted-quad IPv4 address, with `ipaddress`'s strict
grammar: 1–3 decimal digits, no leading zero, value ≤ 255. -/
def parseOctet (l : List Char) : Option ℕ :=
  if l = [] then none
  else if ¬l.all Char.isDigit then none
  else if 3 < l.length then none
  else if 1 < l.length ∧ l.head? = some '0' then none
  else
    let v := l.foldl (fun a c => 10 * a + (c.toNat - 48)) 0
    if v ≤ 255 then some v else none

/-- Split a character list on a separator (Python `str.split`). -/
def splitOnChar (sep : Char) : List Char → List (List Char)
  | [] => [[]]
  | c :: t =>
    if c = sep then [] :: splitOnChar sep t
    else
      match splitOnChar sep t with
      | h :: t' => (c :: h) :: t'
      | [] => [[c]]

/-- Strict IPv4 parsing, the `ipaddress.ip_address` grammar for
dotted-quad addresses.  (The source also accepts IPv6 literals; in
this model those take the non-fatal pass-through branch, which leaves
the claims under study unaffected since both behaviours are
idempotent.) -/
def parseQuad : List (List Char) → Option (ℕ × ℕ × ℕ × ℕ)
  | [p1, p2, p3, p4] =>
    (parseOctet p1).bind fun a =>
    (parseOctet p2).bind fun b =>
    (parseOctet p3).bind fun c =>
    (parseOctet p4).bind fun d =>
    some (a, b, c, d)
  | _ => none

def parseIPv4 (s : String) : Option (ℕ × ℕ × ℕ × ℕ) :=
  parseQuad (splitOnChar '.' s.data)

/-- The decimal digit character for `d < 10`. -/
def digitChar48 (d : ℕ) : Char := Char.ofNat (d + 48)

/-- Decimal rendering of one octet (octets are < 1000 by grammar). -/
def renderOctet (n : ℕ) : List Char :=
  if n < 10 then [digitChar48 n]
  else if n < 100 then [digitChar48 (n / 10), digitChar48 (n % 10)]
  else [digitChar48 (n / 100), digitChar48 (n / 10 % 10), digitChar48 (n % 10)]

/-- `str(ipaddress.ip_address(...))` for a parsed IPv4 address. -/
def renderIPv4 : ℕ × ℕ × ℕ × ℕ → String
  | (a, b, c, d) =>
    ⟨renderOctet a ++ '.' :: (renderOctet b ++ '.' :: (renderOctet c ++ '.' :: renderOctet d))⟩

/-- The domain value after lowering, stripping, scheme removal and
`strip("/ ")`, before the final port cut. -/
def domPreColon (val : String) : String :=
  stripSlashSpace
    (if "http://".data.isPrefixOf (pyStrip (pyLower val)).data ∨
        "https://".data.isPrefixOf (pyStrip (pyLower val)).data then
      urlNetlocOrPath (pyStrip (pyLower val))
    else pyStrip (pyLower val))

/-- The domain-value normalization of `canonicalize`: lowercase,
strip, remove an `http(s)://` scheme, strip `/` and spaces, cut at the
first `:` (port removal). -/
def domCanonVal (val : String) : String :=
  if ':' ∈ (domPreColon val).data then ⟨(domPreColon val).data.takeWhile (· ≠ ':')⟩
  else domPreColon val

/-- `canonicalize(ioc)` from `dedup_index/deduplicator.py` (the
`if typ == ...` chain of the source). -/
def canonicalize (ioc : Ioc) : Ioc :=
  match ioc.value with
  | none => ioc
  | some val =>
    if val = "" then ioc
    else if ioc.typ = some "domain" then
      { ioc with value := some (domCanonVal val), typ := some "domain" }
    else if ioc.typ = some "ip" then
      match parseIPv4 val with
      | some q => { ioc with value := some (renderIPv4 q), typ := some "ip" }
      | none => ioc
    else if ioc.typ = some "hash" then
      { ioc with value := some (pyLower val), typ := some "hash" }
    else { ioc with value := some (pyStrip val) }

end Dedup

namespace Dedup

/-- The `+5` reverse-PTR term of `compute_confidence`, with the
source's control flow: a truthy non-dict raises at
`enrichment["reverse"].get("ptr")` (caught by the outer handler). -/
def revStep : Option EVal → Except Unit ℤ
  | none => .ok 0
  | some (.obj r) => .ok (if ¬r.isEmpty ∧ truthyO (pyGet r "ptr") then 5 else 0)
  | some v => if truthy v then .error () else .ok 0

/-- The `+20` multiple-sources term of `compute_confidence`:
`int(sc) > 1` inside its own `try/except: pass`. -/
def scTerm (e : Enr) : ℤ :=
  match aLookup e "sources_count" with
  | none => 0
  | some v =>
    match pyIntOf v with
    | some n => if 1 < n then 20 else 0
    | none => 0

/-- `value or {}` used as a dict inside `compute_confidence`'s broad
`try`: a truthy non-dict raises at the following `.get`. -/
def asObjE (o : Option EVal) : Except Unit Enr :=
  match o with
  | none => .ok []
  | some (.obj fs) => .ok fs
  | some v => if truthy v then .error () else .ok []

/-- The accumulation inside `compute_confidence`'s `try` block: on an
exception the score gathered so far is kept (the handler only logs). -/
def ccSteps (e : Enr) : ℤ :=
  match asObjE (pyGet e "geoip") with
  | .error _ => 0
  | .ok g =>
    let t1 : ℤ := if ¬g.isEmpty ∧ truthyO (pyGet g "country") then 25 else 0
    match asObjE (pyGet e "whois") with
    | .error _ => t1
    | .ok w =>
      let t2 : ℤ := if ¬w.isEmpty ∧ truthyO (pyGet w "registrar") then 20 else 0
      match asObjE (pyGet e "dns") with
      | .error _ => t1 + t2
      | .ok d =>
        let t3 : ℤ :=
          if ¬d.isEmpty ∧ (truthyO (pyGet d "a") ∨ truthyO (pyGet d "aaaa") ∨
              truthyO (pyGet d "txt") ∨ truthyO (pyGet d "mx")) then 20 else 0
        match revStep (pyGet e "reverse") with
        | .error _ => t1 + t2 + t3
        | .ok t4 => t1 + t2 + t3 + t4 + scTerm e

/-- `compute_confidence(enrichment)` from
`dedup_index/deduplicator.py`.  (The guard for a non-dict/empty
enrichment returns 0; association lists model dicts.) -/
def compute_confidence (e : Enr) : ℤ :=
  if e.isEmpty then 0 else min 100 (ccSteps e)

/-- The SHA-1/hexdigest truncation of `make_cluster_id`, modelled as an
injective fingerprint that keeps the preimage (see the header note). -/
def sha1hex12 (s : String) : String := s

/-- The `parts` list built by `make_cluster_id`, with the source's
control flow: an exception while reading `geoip`/`whois` keeps the
parts gathered so far and skips the rest of the `try` block (including
the final `type:value` part). -/
def clusterParts (typ value : String) (e : Enr) : List String :=
  match asObjE (pyGet e "geoip") with
  | .error _ => []
  | .ok g =>
    let p1 := (if truthyO (pyGet g "asn") then [pyStr ((pyGet g "asn").getD .null)] else []) ++
      (if truthyO (pyGet g "org") then [pyStr ((pyGet g "org").getD .null)] else [])
    match asObjE (pyGet e "whois") with
    | .error _ => p1
    | .ok w =>
      let p2 := p1 ++ (if truthyO (pyGet w "registrar") then [pyStr ((pyGet w "registrar").getD .null)] else [])
      let rel (k : String) : List String :=
        match pyGet e k with
        | some (.lst xs) => if xs.isEmpty then [] else (xs.map pyStr).mergeSort (fun a b => a ≤ b)
        | some v => if truthy v then [pyStr v] else []
        | none => []
      p2 ++ rel "related_domains" ++ rel "related_hashes" ++ [typ ++ ":" ++ value]

/-- `make_cluster_id(doc)` from `dedup_index/deduplicator.py`, as a
function of the document fields it reads. -/
def make_cluster_id (typ value : String) (e : Enr) : String :=
  let parts := clusterParts typ value e
  let base := if parts.isEmpty then typ ++ ":" ++ value else String.intercalate "::" parts
  "cluster-" ++ sha1hex12 base

end Dedup

namespace Indexer

/-- A persisted indexed document, the JSON object built by
`Indexer.upsert` (timestamps kept as opaque strings). -/
structure Doc where
  id : String
  typ : String
  value : String
  first_seen : String
  last_seen : String
  enrichment : Enr
  sources_count : ℤ
  confidence : ℤ
  cluster_id : String

/-- The SQLite store keyed by document id (`_read_sql_doc` /
`_write_sql_doc`). -/
def Store := String → Option Doc

/-- The empty store. -/
def emptyStore : Store := fun _ => none

/-- `INSERT OR REPLACE` of a document under its id. -/
def insertStore (st : Store) (k : String) (d : Doc) : Store :=
  fun k' => if k' = k then some d else st k'

/-- Python `d[k] = v` on an insertion-ordered dict: replace in place if
the key exists, else append. -/
def aSet : Enr → String → EVal → Enr
  | [], k, v => [(k, v)]
  | (k', v') :: t, k, v =>
    if k' = k then (k, v) :: t else (k', v') :: aSet t k v

/-- Python `old.update(new)` on two dicts (field-level: every key of
`new` overwrites, including `None` values). -/
def pyDictUpdate (old new : Enr) : Enr :=
  new.foldl (fun acc kv => aSet acc kv.1 kv.2) old

/-- The enrichment-merge loop of `Indexer.upsert`: for each key of the
new bundle, skip `None` values; if both sides hold dicts, merge
field-level via `dict.update`; otherwise replace wholesale. -/
def mergeEnrichment (old : Enr) (newE : Enr) : Enr :=
  newE.foldl
    (fun acc kv =>
      match kv.2 with
      | .null => acc
      | .obj nf =>
        match aLookup acc kv.1 with
        | some (.obj of) => aSet acc kv.1 (.obj (pyDictUpdate of nf))
        | _ => aSet acc kv.1 (.obj nf)
      | v => aSet acc kv.1 v)
    old

/-- `int(enrichment.get("sources_count", 1))` (see `pyIntE` for the
modelled domain of `int`). -/
def scOf (e : Enr) : ℤ :=
  match aLookup e "sources_count" with
  | none => 1
  | some v => pyIntE v

/-- The `sources_count` taken from an optional enrichment bundle:
`int(enrichment.get("sources_count", 1))` with a missing/falsy bundle
yielding 1 (both the creation and the merge path reduce to this). -/
def scOfOpt : Option Enr → ℤ
  | none => 1
  | some e => scOf e

/-- The canonical key `f"{can['type']}::{can['value']}"` of an
indicator. -/
def docIdOf (ioc : Ioc) : String :=
  ((Dedup.canonicalize ioc).typ.getD "") ++ "::" ++ ((Dedup.canonicalize ioc).value.getD "")

/-- `Indexer.upsert(ioc, enrichment)` from `dedup_index/indexer.py`.
`now` stands for the value `datetime.utcnow().isoformat()+"Z"` takes
during the call.  Returns the document handed back to the caller
(`none` for the invalid-IOC early return) and the resulting store. -/
def upsert (store : Store) (ioc : Ioc) (enr : Option Enr) (now : String) :
    Option Doc × Store :=
  match ioc.typ, ioc.value with
  | some _, some _ =>
    let docId := docIdOf ioc
    let can := Dedup.canonicalize ioc
    match store docId with
    | some ex =>
      let me := mergeEnrichment ex.enrichment (enr.getD [])
      let d : Doc :=
        { ex with
          enrichment := me,
          sources_count := max ex.sources_count (scOfOpt enr),
          confidence := max ex.confidence (Dedup.compute_confidence me),
          cluster_id := Dedup.make_cluster_id ex.typ ex.value me }
      (some d, insertStore store docId d)
    | none =>
      let e0 := enr.getD []
      let d : Doc :=
        { id := docId,
          typ := can.typ.getD "",
          value := can.value.getD "",
          first_seen := now,
          last_seen := now,
          enrichment := e0,
          sources_count := scOfOpt enr,
          confidence := Dedup.compute_confidence e0,
          cluster_id := Dedup.make_cluster_id (can.typ.getD "") (can.value.getD "") e0 }
      (some d, insertStore store docId d)
  | _, _ => (none, store)

end Indexer

namespace Scoring

/-- The input of `score_ioc`: the `type`, `value`, `source`,
`enrichment` keys of the IOC dict. -/
structure SIoc where
  typ : Option String
  value : Option String
  source : Option String
  enrichment : Option Enr

/-- `PTR_SUSPICIOUS_KEYWORDS` from `utils/scoring.py`. -/
def ptrSuspiciousKeywords : List String :=
  ["scan", "security", "scan-", "scanner", "ipip", "f6.security", "scan.", "bot",
   "malicious", "suspicious", "spam", "mail", "proxy", "tor", "vpn"]

/-- `HIGH_RISK_COUNTRIES` from `utils/scoring.py`. -/
def highRiskCountries : List String := ["IR", "RU", "CN", "KP", "SY", "VN"]

/-- `CLOUD_KEYWORDS` from `utils/scoring.py`. -/
def cloudKeywords : List String :=
  ["amazon", "aws", "google", "gcp", "microsoft", "azure", "digitalocean",
   "ovh", "linode", "vultr", "cloudflare", "cloud", "ucloud", "vps", "hosting",
   "hetzner", "scaleway", "rackspace", "oracle", "aliyun", "tencent"]

/-- `_parse_dt` (ISO timestamps modelled as integer day indices; only
strings parse, as in the source, where `str(...)` of a non-string
never matches the ISO grammar). -/
def parseDt : EVal → Option ℤ
  | .str s => parseIntStr (pyStrip s)
  | _ => none

/-- The itemized breakdown dict of `score_ioc`, one field per key. -/
structure Bkd where
  base : ℤ
  source_weight : ℤ
  abuse_confidence : ℤ
  abuse_contrib : ℤ
  total_reports : ℤ
  total_reports_contrib : ℤ
  distinct_users : ℤ
  distinct_users_contrib : ℤ
  reports_per_user : ℚ
  reports_per_user_contrib : ℤ
  passive_dns_count : ℤ
  passive_dns_contrib : ℤ
  otx_count : ℤ
  otx_contrib : ℤ
  ptr : Option EVal
  ptr_contrib : ℤ
  isp : Option String
  cloud_flag : ℤ
  cloud_penalty : ℤ
  whois_present : ℤ
  whois_contrib : ℤ
  domain_age_days : Option ℤ
  domain_age_contrib : ℤ
  last_reported_days : Option ℤ
  recency_contrib : ℤ
  country : Option String
  country_contrib : ℤ
  no_signals_penalty : ℤ
  final_score_raw : ℤ
  final_score : ℤ
  abuse_confidence_raw : ℤ
  total_reports_raw : ℤ
  distinct_users_raw : ℤ
  isp_raw : Option String

/-- `(ench.get("abuseipdb") or {})` used as a dict (three occurrences
in `score_ioc`; a truthy non-dict raises at the first `.get`). -/
def abObjOf (ench : Enr) : Option Enr := dictOr (pyGet ench "abuseipdb")

/-- `whois_obj = ench.get("whois") or {}` restricted by the
`isinstance(whois_obj, dict)` guard. -/
def woOf (ench : Enr) : Enr :=
  match pyGet ench "whois" with
  | some (.obj o) => o
  | _ => []

/-- The parsed `creation_date`/`created` of the WHOIS object
(unwrapping a non-empty list, as some whois libraries return). -/
def parsedCreationOf (wo : Enr) : Option ℤ :=
  let c0 := pyOr (pyGet wo "creation_date") (pyGet wo "created")
  let c1 : Option EVal :=
    match c0 with
    | some (.lst (x :: _)) => some x
    | v => v
  match c1 with
  | some v => if truthy v then parseDt v else none
  | none => none

/-- The parsed `lastReportedAt` (AbuseIPDB) timestamp. -/
def parsedLastOf (ab ench : Enr) : Option ℤ :=
  match pyOr (pyGet ab "lastReportedAt") (pyGet ench "abuse_lastReportedAt") with
  | some v => if truthy v then parseDt v else none
  | none => none

/-- `isp_lower = (isp or "").lower()`: non-string truthy values raise
at `.lower()`. -/
def ispStr : Option EVal → Option String
  | some (.str s) => some s
  | some v => if truthy v then none else some ""
  | none => some ""

/-- `country = (geoip country value or "").upper()`: non-string truthy
values raise at `.upper()`. -/
def countryStr (ench : Enr) : Option String :=
  let cv : Option EVal :=
    match pyGet ench "geoip" with
    | some (.obj g) => pyOr (pyGet g "country_iso") (pyGet g "country")
    | _ => none
  match cv with
  | some (.str s) => some (pyUpper s)
  | some v => if truthy v then none else some ""
  | none => some ""

/-- The straight-line body of `score_ioc` once the three potentially
raising accesses (`abuseipdb` bundle, ISP string, country string) have
been resolved. -/
def scoreCore (ioc : SIoc) (ench : Enr) (ab : Enr) (isp_s country_s : String)
    (now : ℤ) : ℤ × Bkd :=
  let typ := pyLower (ioc.typ.getD "")
  let src := pyLower (ioc.source.getD "")
  let src_weight : ℤ :=
    if hasSub src "abuseipdb" then 4
    else if hasSub src "otx" ∨ hasSub src "alienvault" then 3
    else if hasSub src "github" ∨ hasSub src "rss" then 1
    else 0
  let ac0 : Option EVal :=
    match pyGet ench "abuseipdb" with
    | some (.obj a) => pyGet a "abuseConfidenceScore"
    | _ => none
  let acv : Option EVal :=
    match ac0 with
    | none => pyGet ench "abuseipdb_score"
    | v => v
  let abuse_conf : ℤ := pyNum acv 0
  let abuse_contrib : ℤ := min 24 (pyRoundDiv abuse_conf 5)
  let total_reports : ℤ :=
    pyNum (pyOr (pyGet ab "totalReports") (pyOr (pyGet ench "abuse_totalReports") (some (.num 0)))) 0
  let trc : ℤ := if 0 < total_reports then min 18 ((rnd4log10 (total_reports + 1).toNat : ℕ) : ℤ) else 0
  let distinct : ℤ :=
    pyNum (pyOr (pyGet ab "numDistinctUsers") (pyOr (pyGet ench "abuse_numDistinctUsers") (some (.num 0)))) 0
  let duc : ℤ := if 0 < distinct then min 12 ((rnd32log10 (distinct + 1).toNat : ℕ) : ℤ) else 0
  let rp : ℚ := if 0 < distinct then (total_reports : ℚ) / ((max 1 distinct : ℤ) : ℚ) else 0
  let rpc : ℤ :=
    if 0 < distinct ∧ 0 < total_reports then
      min 8 ((rnd25log10q (total_reports + distinct).toNat distinct.toNat : ℕ) : ℤ)
    else 0
  let pdns_count : ℤ :=
    match pyGet ench "passive_dns" with
    | some (.lst xs) => (xs.length : ℤ)
    | _ => 0
  let pdc : ℤ := min 8 pdns_count
  let otx_count : ℤ :=
    match pyGet ench "otx" with
    | some (.obj o) => pyNum (pyOr (pyGet o "pulse_count") (pyOr (pyGet o "count") (some (.num 0)))) 0
    | _ => pyNum (pyOr (pyGet ench "otx_count") (some (.num 0))) 0
  let otxc : ℤ := min 8 (otx_count * 2)
  let ptr0 : Option EVal :=
    match pyGet ench "reverse" with
    | some (.obj r) => pyGet r "ptr"
    | _ => none
  let ptr1 : Option EVal :=
    if truthyO ptr0 then ptr0
    else
      match pyGet ench "reverse" with
      | some (.str s) => some (.str s)
      | _ => ptr0
  let ptrHit : Bool :=
    truthyO ptr1 ∧
      ptrSuspiciousKeywords.any (fun kw => hasSub (pyLower (pyStr (ptr1.getD .null))) kw)
  let ptrc : ℤ := if ptrHit then 10 else 0
  let cloudHit : Bool := cloudKeywords.any (fun kw => hasSub (pyLower isp_s) kw)
  let cloudPen : ℤ := if cloudHit then 8 else 0
  let wo := woOf ench
  let whoisSignal : Bool :=
    typ = "domain" ∧
      (truthyO (pyGet wo "registrar") ∨ truthyO (pyGet wo "creation_date") ∨ truthyO (pyGet wo "raw"))
  let wpresent : ℤ := if whoisSignal then 1 else 0
  let wcontrib : ℤ := if whoisSignal then 6 else 0
  let ageOpt : Option ℤ := if whoisSignal then (parsedCreationOf wo).map (fun p => now - p) else none
  let dac : ℤ :=
    match ageOpt with
    | some a => if a ≤ 30 then 8 else if a ≤ 365 then 4 else 0
    | none => 0
  let rd : Option ℤ := (parsedLastOf ab ench).map (fun p => now - p)
  let rc : ℤ :=
    match rd with
    | some d => if d ≤ 7 then 10 else if d ≤ 30 then 7 else if d ≤ 90 then 4 else if d ≤ 365 then 2 else 0
    | none => 0
  let ccontrib : ℤ := if country_s ∈ highRiskCountries then 3 else 0
  let nsPen : ℤ :=
    if abuse_conf = 0 ∧ total_reports = 0 ∧ distinct = 0 ∧ pdns_count = 0 ∧
        otx_count = 0 ∧ ptrc = 0 ∧ wpresent = 0 then 5 else 0
  let raw : ℤ :=
    10 + src_weight + abuse_contrib + trc + duc + rpc + pdc + otxc + ptrc +
      (-cloudPen) + wcontrib + dac + rc + ccontrib + (-nsPen)
  let final : ℤ := max 0 (min 100 raw)
  (final,
    { base := 10
      source_weight := src_weight
      abuse_confidence := abuse_conf
      abuse_contrib := abuse_contrib
      total_reports := total_reports
      total_reports_contrib := trc
      distinct_users := distinct
      distinct_users_contrib := duc
      reports_per_user := rp
      reports_per_user_contrib := rpc
      passive_dns_count := pdns_count
      passive_dns_contrib := pdc
      otx_count := otx_count
      otx_contrib := otxc
      ptr := if truthyO ptr1 then ptr1 else none
      ptr_contrib := ptrc
      isp := if isp_s = "" then none else some isp_s
      cloud_flag := if cloudHit then 1 else 0
      cloud_penalty := -cloudPen
      whois_present := wpresent
      whois_contrib := wcontrib
      domain_age_days := ageOpt
      domain_age_contrib := dac
      last_reported_days := rd
      recency_contrib := rc
      country := if country_s = "" then none else some country_s
      country_contrib := ccontrib
      no_signals_penalty := -nsPen
      final_score_raw := raw
      final_score := final
      abuse_confidence_raw := abuse_conf
      total_reports_raw := total_reports
      distinct_users_raw := distinct
      isp_raw := if isp_s = "" then none else some isp_s })

/-- `score_ioc(ioc)` from `utils/scoring.py`; `now` is the value of
`datetime.now(timezone.utc)` (in days) during the call, and `none`
models an uncaught exception on a malformed enrichment shape. -/
def score_ioc (ioc : SIoc) (now : ℤ) : Option (ℤ × Bkd) :=
  let ench := ioc.enrichment.getD []
  (abObjOf ench).bind fun ab =>
    (ispStr (pyOr (pyGet ab "isp") (pyOr (pyGet ench "abuse_isp") (some (.str ""))))).bind fun isp_s =>
      (countryStr ench).bind fun cs =>
        some (scoreCore ioc ench ab isp_s cs now)

end Scoring

namespace RunIndex

/-- The input of `compute_score` in `run_index.py` (keys of the
enriched-IOC dict that the function reads). -/
structure RItem where
  typ : Option String
  value : Option String
  source : Option String
  enrichment : Option Enr

/-- The breakdown dict built by `compute_score`. -/
structure RBkd where
  base : ℤ
  source_weight : ℤ
  abuse_confidence : ℤ
  abuse_contrib : ℤ
  total_reports : ℤ
  total_reports_contrib : ℤ
  distinct_users : ℤ
  distinct_users_contrib : ℤ
  passive_dns_count : ℤ
  passive_dns_contrib : ℤ
  otx_count : ℤ
  otx_contrib : ℤ
  ptr : Option EVal
  ptr_contrib : ℤ
  whois_present : ℤ
  whois_contrib : ℤ
  country : Option EVal
  country_contrib : ℤ
  no_signals_penalty : ℤ
  final_score_raw : ℤ
  final_score : ℤ

/-- `map_reports_to_contrib` from `run_index.py`. -/
def map_reports_to_contrib (r : ℤ) : ℤ :=
  if 10000 ≤ r then 18
  else if 5000 ≤ r then 16
  else if 2000 ≤ r then 14
  else if 1000 ≤ r then 12
  else if 500 ≤ r then 10
  else if 200 ≤ r then 8
  else if 50 ≤ r then 5
  else if 10 ≤ r then 2
  else 0

/-- `map_users_to_contrib` from `run_index.py`. -/
def map_users_to_contrib (u : ℤ) : ℤ :=
  if 1000 ≤ u then 10
  else if 500 ≤ u then 9
  else if 200 ≤ u then 7
  else if 100 ≤ u then 5
  else if 25 ≤ u then 3
  else 0

/-- `ptr_heuristic(ptr)` from `run_index.py` (`none` = the `.lower()`
call raises on a truthy non-string). -/
def ptr_heuristic : Option EVal → Option ℤ
  | none => some 0
  | some (.str s) =>
    some (if (["scan", "security", "malware", "bot", "spammer", "scan-"] : List String).any
        (fun kw => hasSub (pyLower s) kw) then 12 else 0)
  | some v => if truthy v then none else some 0

/-- `HIGH_RISK_COUNTRIES` from `run_index.py` (note: a different set
from the one in `utils/scoring.py`). -/
def highRisk : List String := ["CN", "RU", "IR", "KP", "SY"]

/-- `country_heuristic(country_iso)` from `run_index.py`. -/
def country_heuristic : Option EVal → Option ℤ
  | none => some 0
  | some (.str s) => if s = "" then some 0 else some (if pyUpper s ∈ highRisk then 5 else 0)
  | some v => if truthy v then none else some 0

/-- `source_weight(src)` from `run_index.py`. -/
def source_weight (src : Option String) : ℤ :=
  match src with
  | none => 5
  | some s =>
    if s = "" then 5
    else
      let sl := pyLower s
      if hasSub sl "abuseipdb" then 20
      else if hasSub sl "otx" then 10
      else if hasSub sl "urlhaus" then 12
      else 5

/-- `abuse = e.get("abuseipdb") or e.get("abuse")`, then the
`isinstance(abuse, dict)` guard. -/
def abuseObjOf (e : Enr) : Option Enr :=
  match pyOr (pyGet e "abuseipdb") (pyGet e "abuse") with
  | some (.obj o) => some o
  | _ => none

/-- `(abuse.get("data") or {})` (only reached when `abuse` is a dict;
a truthy non-dict raises at the chained `.get`). -/
def dataObjOf : Option Enr → Option Enr
  | none => some []
  | some o => dictOr (pyGet o "data")

/-- Python `int(v)` with no handler around it: `none` = exception. -/
def pyIntCrash : Option EVal → Option ℤ
  | none => none
  | some v => pyIntOf v

/-- `abuse_conf` with its `try/except → 0` conversion. -/
def abuseConfOf (abuse : Option Enr) (d e : Enr) : ℤ :=
  match abuse with
  | none => 0
  | some o =>
    match pyOr (pyGet o "abuseConfidenceScore") (pyOr (pyGet d "abuseConfidenceScore") (pyGet e "abuseipdb_score")) with
    | none => 0
    | some v => (pyIntOf v).getD 0

/-- `int(abuse.get("totalReports") or (abuse.get("data") or {}).get("totalReports") or 0)`. -/
def reportsOf (abuse : Option Enr) (d : Enr) : Option ℤ :=
  match abuse with
  | none => some 0
  | some o => pyIntCrash (pyOr (pyGet o "totalReports") (pyOr (pyGet d "totalReports") (some (.num 0))))

/-- `int(abuse.get("numDistinctUsers") or ... or 0)`. -/
def distinctOf (abuse : Option Enr) (d : Enr) : Option ℤ :=
  match abuse with
  | none => some 0
  | some o => pyIntCrash (pyOr (pyGet o "numDistinctUsers") (pyOr (pyGet d "numDistinctUsers") (some (.num 0))))

/-- `len(e.get("passive_dns") or [])`: `len` works on lists, strings
and dicts, raises on a non-zero int. -/
def pdnsLenOf (e : Enr) : Option ℤ :=
  match pyGet e "passive_dns" with
  | none => some 0
  | some (.lst xs) => some xs.length
  | some (.str s) => some s.data.length
  | some (.obj o) => some o.length
  | some (.num n) => if n = 0 then some 0 else none
  | some .null => some 0

/-- `e.get("reverse", {}).get("ptr")`: the default only applies when
the key is missing; any present non-dict value raises at `.get`. -/
def ptrValOf (e : Enr) : Option (Option EVal) :=
  match aLookup e "reverse" with
  | none => some none
  | some (.obj r) => some (pyGet r "ptr")
  | some _ => none

/-- `e.get("geoip", {}).get("country_iso")` with the same shape. -/
def countryValOf (e : Enr) : Option (Option EVal) :=
  match aLookup e "geoip" with
  | none => some none
  | some (.obj g) => some (pyGet g "country_iso")
  | some _ => none

/-- The straight-line tail of `compute_score` once the potentially
raising extractions are resolved. -/
def computeCore (item : RItem) (e : Enr) (abuse : Option Enr) (d : Enr)
    (total_reports distinct pdnsLen otx_count : ℤ)
    (ptrv : Option EVal) (ptrc : ℤ) (cv : Option EVal) (cc : ℤ) : ℤ × RBkd :=
  let sw := source_weight item.source
  let abuse_conf := abuseConfOf abuse d e
  let abuse_contrib := pyRoundDiv abuse_conf 4
  let trc := map_reports_to_contrib total_reports
  let duc := map_users_to_contrib distinct
  let otxc : ℤ := min 8 otx_count
  let wp : ℤ := if truthyO (pyOr (pyGet e "whois") (pyGet e "whois_hint")) then 1 else 0
  let nsp : ℤ :=
    if abuse_conf = 0 ∧ total_reports = 0 ∧ otx_count = 0 ∧ pdnsLen = 0 then -5 else 0
  let raw : ℤ := 10 + sw + abuse_contrib + trc + duc + 0 + otxc + ptrc + cc + 0 + nsp
  let final : ℤ := max 0 (min 100 raw)
  (final,
    { base := 10
      source_weight := sw
      abuse_confidence := abuse_conf
      abuse_contrib := abuse_contrib
      total_reports := total_reports
      total_reports_contrib := trc
      distinct_users := distinct
      distinct_users_contrib := duc
      passive_dns_count := pdnsLen
      passive_dns_contrib := 0
      otx_count := otx_count
      otx_contrib := otxc
      ptr := ptrv
      ptr_contrib := ptrc
      whois_present := wp
      whois_contrib := 0
      country := cv
      country_contrib := cc
      no_signals_penalty := nsp
      final_score_raw := raw
      final_score := final })

/-- `compute_score(item)` from `run_index.py` (`none` models an
uncaught exception on a malformed enrichment shape). -/
def compute_score (item : RItem) : Option (ℤ × RBkd) :=
  let e := item.enrichment.getD []
  let abuse := abuseObjOf e
  (dataObjOf abuse).bind fun d =>
    (reportsOf abuse d).bind fun tr =>
      (distinctOf abuse d).bind fun du =>
        (pdnsLenOf e).bind fun pl =>
          (pyIntCrash (pyOr (pyGet e "otx_count") (some (.num 0)))).bind fun oc =>
            (ptrValOf e).bind fun ptrv =>
              (ptr_heuristic ptrv).bind fun ptrc =>
                (countryValOf e).bind fun cv =>
                  (country_heuristic cv).bind fun cc =>
                    some (computeCore item e abuse d tr du pl oc ptrv ptrc cv cc)

/-- The risk-bucket assignment from `main` in `run_index.py`. -/
def riskBucket (s : ℤ) : String :=
  if 70 ≤ s then "high" else if 40 ≤ s then "medium" else "low"

end RunIndex

namespace CacheM

/-- `Cache._path`'s key sanitization: `/` and `:` both become `_`
(the constant directory and `.json` suffix are injective in the
sanitized name and omitted). -/
def sanitizeKey (k : String) : String :=
  ⟨k.data.map (fun c => if c = '/' ∨ c = ':' then '_' else c)⟩

/-- One on-disk cache file: `{"_expiry": ..., "value": ...}`. -/
structure CEntry where
  expiry : ℤ
  value : EVal

/-- The cache directory, keyed by sanitized file name. -/
def CStore := String → Option CEntry

/-- An empty cache directory. -/
def emptyCache : CStore := fun _ => none

/-- `Cache.set(key, value, ttl)` (disk branch) at wall-clock time `t`. -/
def cacheSet (st : CStore) (k : String) (v : EVal) (ttl t : ℤ) : CStore :=
  fun p => if p = sanitizeKey k then some { expiry := t + ttl, value := v } else st p

/-- `Cache.get(key)` (disk branch) at wall-clock time `t`: a missing
file is a miss; a file whose (truthy) expiry is in the past is removed
and reported as a miss; otherwise the stored value is returned. -/
def cacheGet (st : CStore) (k : String) (t : ℤ) : Option EVal × CStore :=
  match st (sanitizeKey k) with
  | none => (none, st)
  | some en =>
    if en.expiry ≠ 0 ∧ en.expiry < t then
      (none, fun p => if p = sanitizeKey k then none else st p)
    else (some en.value, st)

end CacheM

/-- The sum of all named contributions of a `score_ioc` breakdown
(`base`, `source_weight`, every `*_contrib`, the cloud penalty and the
no-signals penalty, both stored negatively), clamped to `[0, 100]`. -/
def Scoring.clampSum (b : Scoring.Bkd) : ℤ :=
  max 0 (min 100 (b.base + b.source_weight + b.abuse_contrib + b.total_reports_contrib +
    b.distinct_users_contrib + b.reports_per_user_contrib + b.passive_dns_contrib +
    b.otx_contrib + b.ptr_contrib + b.cloud_penalty + b.whois_contrib +
    b.domain_age_contrib + b.recency_contrib + b.country_contrib + b.no_signals_penalty))

/-- The sum of all named contributions of a `compute_score` breakdown,
clamped to `[0, 100]` (the order mirrors `total_raw` in the source). -/
def RunIndex.clampSum (b : RunIndex.RBkd) : ℤ :=
  max 0 (min 100 (b.base + b.source_weight + b.abuse_contrib + b.total_reports_contrib +
    b.distinct_users_contrib + b.passive_dns_contrib + b.otx_contrib + b.ptr_contrib +
    b.country_contrib + b.whois_contrib + b.no_signals_penalty))

/-- The enrichment's `sources_count`, when present, is numeric: the
inputs on which the source's unguarded `int(...)` does not raise. -/
def Indexer.scWFb (e : Enr) : Bool :=
  match aLookup e "sources_count" with
  | none => true
  | some (.num _) => true
  | some _ => false

/- Concrete instances used by witnesses and counterexamples. -/

/-- The indicator of §8's AbuseIPDB scenario. -/
def c8item : RunIndex.RItem :=
  { typ := some "ip", value := some "46.161.50.108", source := some "AbuseIPDB",
    enrichment := some [("abuseipdb",
      .obj [("abuseConfidenceScore", .num 100), ("totalReports", .num 12000)])] }

/-- An IOC whose enrichment carries an AbuseIPDB `lastReportedAt`
timestamp (day 100). -/
def c1ioc : Scoring.SIoc :=
  ⟨some "ip", some "1.2.3.4", none, some [("abuseipdb", .obj [("lastReportedAt", .str "100")])]⟩

/-- An IOC whose enrichment carries no timestamp field. -/
def c1wioc : Scoring.SIoc :=
  ⟨none, none, none, some [("abuseipdb", .obj [("abuseConfidenceScore", .num 50)])]⟩

/-- The breakdown `score_ioc` computes for an IOC with no data at all. -/
def c2bkdS : Scoring.Bkd :=
  { base := 10, source_weight := 0, abuse_confidence := 0, abuse_contrib := 0,
    total_reports := 0, total_reports_contrib := 0, distinct_users := 0,
    distinct_users_contrib := 0, reports_per_user := 0, reports_per_user_contrib := 0,
    passive_dns_count := 0, passive_dns_contrib := 0, otx_count := 0, otx_contrib := 0,
    ptr := none, ptr_contrib := 0, isp := none, cloud_flag := 0, cloud_penalty := 0,
    whois_present := 0, whois_contrib := 0, domain_age_days := none, domain_age_contrib := 0,
    last_reported_days := none, recency_contrib := 0, country := none, country_contrib := 0,
    no_signals_penalty := -5, final_score_raw := 5, final_score := 5,
    abuse_confidence_raw := 0, total_reports_raw := 0, distinct_users_raw := 0, isp_raw := none }

/-- The breakdown `compute_score` computes for an item with no data. -/
def c2bkdR : RunIndex.RBkd :=
  { base := 10, source_weight := 5, abuse_confidence := 0, abuse_contrib := 0,
    total_reports := 0, total_reports_contrib := 0, distinct_users := 0,
    distinct_users_contrib := 0, passive_dns_count := 0, passive_dns_contrib := 0,
    otx_count := 0, otx_contrib := 0, ptr := none, ptr_contrib := 0,
    whois_present := 0, whois_contrib := 0, country := none, country_contrib := 0,
    no_signals_penalty := -5, final_score_raw := 10, final_score := 10 }

/-- A previously indexed document for `ip::1.2.3.4`, created at `T0`. -/
def exDoc1 : Indexer.Doc :=
  { id := "ip::1.2.3.4", typ := "ip", value := "1.2.3.4", first_seen := "T0", last_seen := "T0",
    enrichment := [("geoip", .obj [("country", .str "DE")])], sources_count := 1,
    confidence := 25, cluster_id := "cluster-ip:1.2.3.4" }

/-- A store already holding `exDoc1`. -/
def exStore1 : Indexer.Store := Indexer.insertStore Indexer.emptyStore "ip::1.2.3.4" exDoc1

/-- The indicator matching `exDoc1`. -/
def ioc1 : Ioc := ⟨some "ip", some "1.2.3.4", none⟩

/-- A bundle observing only DNS data. -/
def obsA : Enr := [("dns", .obj [("a", .str "9.9.9.9")])]

/-- A bundle observing only WHOIS data. -/
def obsB : Enr := [("whois", .obj [("registrar", .str "R")])]

/-- Two observations assigning different values to the same field. -/
def obsX1 : Enr := [("abuseipdb", .obj [("x", .num 1)])]

/-- See `obsX1`. -/
def obsX2 : Enr := [("abuseipdb", .obj [("x", .num 2)])]

/-- A placeholder document (used only as an `Option.getD` default in
statements whose options are proven to be `some`). -/
def dfltDoc : Indexer.Doc :=
  { id := "", typ := "", value := "", first_seen := "", last_seen := "",
    enrichment := [], sources_count := 0, confidence := 0, cluster_id := "" }

/-- Extensional document equality: Python `==` on the persisted JSON
objects, with the enrichment dicts compared as mappings. -/
def Indexer.DocEqv (d1 d2 : Indexer.Doc) : Prop :=
  d1.id = d2.id ∧ d1.typ = d2.typ ∧ d1.value = d2.value ∧
  d1.first_seen = d2.first_seen ∧ d1.last_seen = d2.last_seen ∧
  d1.sources_count = d2.sources_count ∧ d1.confidence = d2.confidence ∧
  d1.cluster_id = d2.cluster_id ∧
  ∀ k, aLookup d1.enrichment k = aLookup d2.enrichment k

/-- A well-shaped enrichment observation for the merge-commutativity
claim: every provider value is a structured map (dict), provider keys
are not repeated, and the numeric `sources_count` key is absent. -/
def obsOK (e : Enr) : Prop :=
  (∀ kv ∈ e, ∃ fs, kv.2 = EVal.obj fs) ∧ (e.map Prod.fst).Nodup ∧
    "sources_count" ∉ e.map Prod.fst

/-- The per-key terms of `compute_confidence` when no access raises
(all provider values are dicts): geoip country. -/
def tGeo : Option EVal → ℤ
  | some (.obj g) => if ¬g.isEmpty ∧ truthyO (pyGet g "country") then 25 else 0
  | _ => 0

/-- WHOIS registrar term. -/
def tWho : Option EVal → ℤ
  | some (.obj w) => if ¬w.isEmpty ∧ truthyO (pyGet w "registrar") then 20 else 0
  | _ => 0

/-- DNS records term. -/
def tDns : Option EVal → ℤ
  | some (.obj d) =>
    if ¬d.isEmpty ∧ (truthyO (pyGet d "a") ∨ truthyO (pyGet d "aaaa") ∨
        truthyO (pyGet d "txt") ∨ truthyO (pyGet d "mx")) then 20 else 0
  | _ => 0

/-- Reverse-PTR term. -/
def tRev : Option EVal → ℤ
  | some (.obj r) => if ¬r.isEmpty ∧ truthyO (pyGet r "ptr") then 5 else 0
  | _ => 0

/-- A character that the domain normalization can strip from an end of
the value: whitespace or `/`. -/
def badEdge (c : Char) : Bool := isPyWs c ∨ c = '/'

/-- A string that the domain normalization's strips leave untouched at
both ends. -/
def domSafe (s : String) : Bool :=
  s.data.isEmpty || (!badEdge (s.data.headD 'a') && !badEdge (s.data.getLastD 'a'))

/-- The amendment's side condition for canonicalization idempotence:
for domain indicators, the canonical value must not end (or begin) in
a strippable character — such values arise only from pathological
inputs like `"a/:x"`, where cutting at `:` re-exposes a `/` or a
space. -/
def idemOK (ioc : Ioc) : Prop :=
  ioc.typ = some "domain" →
    domSafe (((Dedup.canonicalize ioc).value).getD "") = true

/-- Claim C10: an upsert whose IOC is falsy or lacks a `type` or
`value` key returns `None` and leaves the persisted store unchanged. -/
theorem upsert_invalid_returns_none (store : Indexer.Store) (ioc : Ioc)
    (enr : Option Enr) (now : String) (h : ioc.typ = none ∨ ioc.value = none) :
    Indexer.upsert store ioc enr now = (none, store) := by
  obtain ⟨t, v, s⟩ := ioc
  rcases h with h | h
  · cases t with
    | none => cases v <;> rfl
    | some x => exact Option.noConfusion h
  · cases v with
    | none => cases t <;> rfl
    | some x => exact Option.noConfusion h

/-- Witness for C10 at a concrete invalid IOC. -/
theorem upsert_invalid_returns_none_w :
    Indexer.upsert Indexer.emptyStore ⟨none, some "x", none⟩ none "T" =
      (none, Indexer.emptyStore) :=
  upsert_invalid_returns_none _ _ _ _ (Or.inl rfl)

/-- Claim C8: the AbuseIPDB scenario (`abuseConfidenceScore` 100,
`totalReports` 12000, source `AbuseIPDB`) scores 73 ≥ 70 and the
`main` bucketing assigns `high`. -/
theorem c8_scenario_high :
    (RunIndex.compute_score c8item).map Prod.fst = some 73 ∧
      (70 : ℤ) ≤ 73 ∧ RunIndex.riskBucket 73 = "high" :=
  ⟨rfl, by norm_num, rfl⟩

/-- Counterexample to C9 as stated: the key sanitization maps both `/`
and `:` to `_`, so a `set` under `"a/b"` overwrites the entry of
`"a:b"`; a fresh, unexpired `get("a:b")` then returns the value stored
for the other key, not the one most recently stored for `"a:b"`. -/
theorem cache_alias_cx :
    (CacheM.cacheGet
        (CacheM.cacheSet (CacheM.cacheSet CacheM.emptyCache "a:b" (.num 1) 100 0)
          "a/b" (.num 2) 100 0)
        "a:b" 1).1 = some (.num 2) ∧
      EVal.num 2 ≠ EVal.num 1 :=
  ⟨rfl, by simp⟩

/-- Claim C9 (amended: per sanitized key, and with the source's strict
`time.time() > expiry` comparison and truthy-expiry guard): after a
`set`, a `get` strictly past the expiry is a miss and evicts exactly
that entry, while a `get` at or before the expiry returns the value
just stored. -/
theorem cache_get_ttl (st : CacheM.CStore) (k : String) (v : EVal) (ttl t t' : ℤ) :
    (t + ttl ≠ 0 → t + ttl < t' →
      (CacheM.cacheGet (CacheM.cacheSet st k v ttl t) k t').1 = none ∧
      (CacheM.cacheGet (CacheM.cacheSet st k v ttl t) k t').2 (CacheM.sanitizeKey k) = none ∧
      ∀ p, p ≠ CacheM.sanitizeKey k →
        (CacheM.cacheGet (CacheM.cacheSet st k v ttl t) k t').2 p =
          CacheM.cacheSet st k v ttl t p) ∧
    (t' ≤ t + ttl →
      (CacheM.cacheGet (CacheM.cacheSet st k v ttl t) k t').1 = some v) := by
  have hred : (CacheM.cacheSet st k v ttl t) (CacheM.sanitizeKey k) =
      some { expiry := t + ttl, value := v } := by
    simp [CacheM.cacheSet]
  constructor
  · intro h1 h2
    simp only [CacheM.cacheGet, hred]
    rw [if_pos (show (t + ttl ≠ 0 ∧ t + ttl < t') from ⟨h1, h2⟩)]
    refine ⟨rfl, by simp, ?_⟩
    intro p hp
    simp [hp]
  · intro h1
    simp only [CacheM.cacheGet, hred]
    rw [if_neg (show ¬(t + ttl ≠ 0 ∧ t + ttl < t') by omega)]

/-- Witness for C9 at concrete keys and times. -/
theorem cache_get_ttl_w :
    ((CacheM.cacheGet (CacheM.cacheSet CacheM.emptyCache "k" (.num 7) 10 0) "k" 11).1 = none ∧
      (CacheM.cacheGet (CacheM.cacheSet CacheM.emptyCache "k" (.num 7) 10 0) "k" 11).2
        (CacheM.sanitizeKey "k") = none ∧
      ∀ p, p ≠ CacheM.sanitizeKey "k" →
        (CacheM.cacheGet (CacheM.cacheSet CacheM.emptyCache "k" (.num 7) 10 0) "k" 11).2 p =
          CacheM.cacheSet CacheM.emptyCache "k" (.num 7) 10 0 p) ∧
    (CacheM.cacheGet (CacheM.cacheSet CacheM.emptyCache "k" (.num 7) 10 0) "k" 5).1 =
      some (.num 7) :=
  ⟨(cache_get_ttl CacheM.emptyCache "k" (.num 7) 10 0 11).1 (by norm_num) (by norm_num),
   (cache_get_ttl CacheM.emptyCache "k" (.num 7) 10 0 5).2 (by norm_num)⟩

/-- Counterexample to C6 as stated: merging into `exDoc1` (whose
`last_seen` is `"T0"`) at time `"T1"` leaves `last_seen` at `"T0"`;
the merge path of `Indexer.upsert` never touches `last_seen`. -/
theorem upsert_merge_last_seen_cx :
    ((Indexer.upsert exStore1 ioc1 none "T1").1.map Indexer.Doc.last_seen) = some "T0" ∧
      "T0" ≠ "T1" :=
  ⟨rfl, by decide⟩

/-- Claim C6 (amended: on a merge upsert, `first_seen` **and**
`last_seen` are both left unchanged — only the SQLite row's
`last_updated` column is refreshed — and every document field other
than `enrichment`, `sources_count`, `confidence`, `cluster_id` is
unchanged). -/
theorem upsert_merge_frame (store : Indexer.Store) (ioc : Ioc) (enr : Option Enr)
    (now : String) (ex : Indexer.Doc)
    (ht : ioc.typ.isSome = true) (hv : ioc.value.isSome = true)
    (hex : store (Indexer.docIdOf ioc) = some ex) :
    ((Indexer.upsert store ioc enr now).1.map Indexer.Doc.id = some ex.id) ∧
    ((Indexer.upsert store ioc enr now).1.map Indexer.Doc.typ = some ex.typ) ∧
    ((Indexer.upsert store ioc enr now).1.map Indexer.Doc.value = some ex.value) ∧
    ((Indexer.upsert store ioc enr now).1.map Indexer.Doc.first_seen = some ex.first_seen) ∧
    ((Indexer.upsert store ioc enr now).1.map Indexer.Doc.last_seen = some ex.last_seen) := by
  obtain ⟨t, v, s⟩ := ioc
  cases t with
  | none => exact absurd ht (by simp)
  | some t' =>
    cases v with
    | none => exact absurd hv (by simp)
    | some v' =>
      simp only [Indexer.upsert]
      rw [hex]
      exact ⟨rfl, rfl, rfl, rfl, rfl⟩

/-- Witness for C6 (amended) at the concrete store `exStore1`. -/
theorem upsert_merge_frame_w :
    ((Indexer.upsert exStore1 ioc1 none "T1").1.map Indexer.Doc.id = some exDoc1.id) ∧
    ((Indexer.upsert exStore1 ioc1 none "T1").1.map Indexer.Doc.typ = some exDoc1.typ) ∧
    ((Indexer.upsert exStore1 ioc1 none "T1").1.map Indexer.Doc.value = some exDoc1.value) ∧
    ((Indexer.upsert exStore1 ioc1 none "T1").1.map Indexer.Doc.first_seen = some exDoc1.first_seen) ∧
    ((Indexer.upsert exStore1 ioc1 none "T1").1.map Indexer.Doc.last_seen = some exDoc1.last_seen) :=
  upsert_merge_frame exStore1 ioc1 none "T1" exDoc1 rfl rfl rfl

/-- Claim C4: merging any enrichment into an existing document never
decreases `confidence` or `sources_count` (both are taken as a `max`
with the old value). -/
theorem upsert_merge_monotone (store : Indexer.Store) (ioc : Ioc) (enr : Option Enr)
    (now : String) (ex : Indexer.Doc)
    (ht : ioc.typ.isSome = true) (hv : ioc.value.isSome = true)
    (hex : store (Indexer.docIdOf ioc) = some ex)
    (hsc : Indexer.scWFb (enr.getD []) = true) :
    ((Indexer.upsert store ioc enr now).1.isSome = true) ∧
    ∀ d, (Indexer.upsert store ioc enr now).1 = some d →
      ex.confidence ≤ d.confidence ∧ ex.sources_count ≤ d.sources_count := by
  obtain ⟨t, v, s⟩ := ioc
  cases t with
  | none => exact absurd ht (by simp)
  | some t' =>
    cases v with
    | none => exact absurd hv (by simp)
    | some v' =>
      simp only [Indexer.upsert]
      rw [hex]
      refine ⟨rfl, ?_⟩
      intro d hd
      injection hd with hd
      rw [← hd]
      exact ⟨le_max_left _ _, le_max_left _ _⟩

/-- Witness for C4 at the concrete store `exStore1`. -/
theorem upsert_merge_monotone_w :
    ((Indexer.upsert exStore1 ioc1 (some obsB) "T1").1.isSome = true) ∧
    ∀ d, (Indexer.upsert exStore1 ioc1 (some obsB) "T1").1 = some d →
      exDoc1.confidence ≤ d.confidence ∧ exDoc1.sources_count ≤ d.sources_count :=
  upsert_merge_monotone exStore1 ioc1 (some obsB) "T1" exDoc1 rfl rfl rfl rfl

/-- Counterexample to C7 as stated: creating a document from an
enrichment carrying `sources_count = 0` stores `sources_count = 0`,
not `max(1, 0) = 1` — the source applies no `max(1, ·)` floor on
creation. -/
theorem upsert_create_sources_count_cx :
    ((Indexer.upsert Indexer.emptyStore ioc1 (some [("sources_count", .num 0)]) "T").1.map
        Indexer.Doc.sources_count) = some 0 ∧
      (0 : ℤ) ≠ max 1 0 :=
  ⟨rfl, by decide⟩

/-- Claim C7 (amended: the new document gets
`first_seen = last_seen = now`, the given enrichment, and
`sources_count = int(enrichment.get("sources_count", 1))` — the given
value when present, defaulting to 1, with **no** `max(1, ·)` floor —
plus freshly computed confidence and cluster id; it is persisted under
its canonical key and returned). -/
theorem upsert_create_fields (store : Indexer.Store) (ioc : Ioc) (enr : Option Enr)
    (now : String)
    (ht : ioc.typ.isSome = true) (hv : ioc.value.isSome = true)
    (hnone : store (Indexer.docIdOf ioc) = none)
    (hsc : Indexer.scWFb (enr.getD []) = true) :
    ((Indexer.upsert store ioc enr now).1.isSome = true) ∧
    ∀ d, (Indexer.upsert store ioc enr now).1 = some d →
      (Indexer.upsert store ioc enr now).2 = Indexer.insertStore store (Indexer.docIdOf ioc) d ∧
      d.id = Indexer.docIdOf ioc ∧
      d.first_seen = now ∧ d.last_seen = now ∧
      d.enrichment = enr.getD [] ∧
      d.sources_count = Indexer.scOfOpt enr ∧
      d.confidence = Dedup.compute_confidence (enr.getD []) ∧
      d.cluster_id = Dedup.make_cluster_id ((Dedup.canonicalize ioc).typ.getD "")
        ((Dedup.canonicalize ioc).value.getD "") (enr.getD []) := by
  obtain ⟨t, v, s⟩ := ioc
  cases t with
  | none => exact absurd ht (by simp)
  | some t' =>
    cases v with
    | none => exact absurd hv (by simp)
    | some v' =>
      simp only [Indexer.upsert]
      rw [hnone]
      refine ⟨rfl, ?_⟩
      intro d hd
      injection hd with hd
      rw [← hd]
      exact ⟨rfl, rfl, rfl, rfl, rfl, rfl, rfl, rfl⟩

/-- Witness for C7 (amended) on the empty store. -/
theorem upsert_create_fields_w :
    ((Indexer.upsert Indexer.emptyStore ioc1 (some [("sources_count", .num 3)]) "T").1.isSome = true) ∧
    ∀ d, (Indexer.upsert Indexer.emptyStore ioc1 (some [("sources_count", .num 3)]) "T").1 = some d →
      (Indexer.upsert Indexer.emptyStore ioc1 (some [("sources_count", .num 3)]) "T").2 =
        Indexer.insertStore Indexer.emptyStore (Indexer.docIdOf ioc1) d ∧
      d.id = Indexer.docIdOf ioc1 ∧
      d.first_seen = "T" ∧ d.last_seen = "T" ∧
      d.enrichment = (some [("sources_count", EVal.num 3)] : Option Enr).getD [] ∧
      d.sources_count = Indexer.scOfOpt (some [("sources_count", EVal.num 3)]) ∧
      d.confidence = Dedup.compute_confidence ((some [("sources_count", EVal.num 3)] : Option Enr).getD []) ∧
      d.cluster_id = Dedup.make_cluster_id ((Dedup.canonicalize ioc1).typ.getD "")
        ((Dedup.canonicalize ioc1).value.getD "") ((some [("sources_count", EVal.num 3)] : Option Enr).getD []) :=
  upsert_create_fields Indexer.emptyStore ioc1 (some [("sources_count", .num 3)]) "T"
    rfl rfl rfl rfl

/-- Helper: the first component of `scoreCore` is the clamp of the sum
of the breakdown's named contributions, and lies in `[0, 100]`. -/
theorem scoreCore_clamp_spec (ioc : Scoring.SIoc) (ench ab : Enr) (isp cs : String) (now : ℤ) :
    0 ≤ (Scoring.scoreCore ioc ench ab isp cs now).1 ∧
    (Scoring.scoreCore ioc ench ab isp cs now).1 ≤ 100 ∧
    (Scoring.scoreCore ioc ench ab isp cs now).1 =
      Scoring.clampSum (Scoring.scoreCore ioc ench ab isp cs now).2 :=
  ⟨le_max_left _ _, max_le (by norm_num) (min_le_left _ _), rfl⟩

/-- Helper: same statement for `computeCore` of `run_index.py`. -/
theorem computeCore_clamp_spec (item : RunIndex.RItem) (e : Enr) (abuse : Option Enr) (d : Enr)
    (tr du pl oc : ℤ) (ptrv : Option EVal) (ptrc : ℤ) (cv : Option EVal) (cc : ℤ) :
    0 ≤ (RunIndex.computeCore item e abuse d tr du pl oc ptrv ptrc cv cc).1 ∧
    (RunIndex.computeCore item e abuse d tr du pl oc ptrv ptrc cv cc).1 ≤ 100 ∧
    (RunIndex.computeCore item e abuse d tr du pl oc ptrv ptrc cv cc).1 =
      RunIndex.clampSum (RunIndex.computeCore item e abuse d tr du pl oc ptrv ptrc cv cc).2 :=
  ⟨le_max_left _ _, max_le (by norm_num) (min_le_left _ _), rfl⟩

/-- Claim C2: whenever either scoring function returns, the final
score is an integer in `[0, 100]` equal to the clamped sum of all
named contributions in its breakdown. -/
theorem score_bounded_and_itemized :
    (∀ (ioc : Scoring.SIoc) (now : ℤ) (s : ℤ) (b : Scoring.Bkd),
      Scoring.score_ioc ioc now = some (s, b) →
        0 ≤ s ∧ s ≤ 100 ∧ s = Scoring.clampSum b) ∧
    (∀ (item : RunIndex.RItem) (s : ℤ) (b : RunIndex.RBkd),
      RunIndex.compute_score item = some (s, b) →
        0 ≤ s ∧ s ≤ 100 ∧ s = RunIndex.clampSum b) := by
  constructor
  · intro ioc now s b h
    simp only [Scoring.score_ioc, Option.bind_eq_some, Option.some.injEq] at h
    obtain ⟨ab, hab, isp, hisp, cs, hcs, h2⟩ := h
    have hs := congrArg Prod.fst h2
    have hb := congrArg Prod.snd h2
    dsimp only at hs hb
    rw [← hs, ← hb]
    exact scoreCore_clamp_spec _ _ _ _ _ _
  · intro item s b h
    simp only [RunIndex.compute_score, Option.bind_eq_some, Option.some.injEq] at h
    obtain ⟨d, hd, tr, htr, du, hdu, pl, hpl, oc, hoc, ptrv, hptrv, ptrc, hptrc, cv, hcv, cc, hcc, h2⟩ := h
    have hs := congrArg Prod.fst h2
    have hb := congrArg Prod.snd h2
    dsimp only at hs hb
    rw [← hs, ← hb]
    exact computeCore_clamp_spec _ _ _ _ _ _ _ _ _ _ _ _

/-- Witness for C2 at concrete no-data inputs for both functions. -/
theorem score_bounded_and_itemized_w :
    (0 ≤ (5 : ℤ) ∧ (5 : ℤ) ≤ 100 ∧ (5 : ℤ) = Scoring.clampSum c2bkdS) ∧
    (0 ≤ (10 : ℤ) ∧ (10 : ℤ) ≤ 100 ∧ (10 : ℤ) = RunIndex.clampSum c2bkdR) :=
  ⟨score_bounded_and_itemized.1 ⟨none, none, none, none⟩ 0 5 c2bkdS rfl,
   score_bounded_and_itemized.2 ⟨none, none, none, none⟩ 10 c2bkdR rfl⟩

/-- Counterexample to C1 as stated: `score_ioc` reads the wall clock.
On an IOC whose enrichment carries `lastReportedAt` day 100, two calls
with identical input return score 15 when the clock reads day 100
(recency contribution 10) but score 5 when it reads day 600
(recency contribution 0) — the output is not a function of the input
document alone. -/
theorem score_clock_dependence_cx :
    (Scoring.score_ioc c1ioc 100).map Prod.fst = some 15 ∧
    (Scoring.score_ioc c1ioc 600).map Prod.fst = some 5 ∧
    (15 : ℤ) ≠ 5 :=
  ⟨rfl, rfl, by decide⟩

/-- Helper: `scoreCore` is independent of `now` when neither timestamp
parse succeeds. -/
theorem scoreCore_time_indep (ioc : Scoring.SIoc) (ench ab : Enr) (isp cs : String)
    (t1 t2 : ℤ)
    (h1 : Scoring.parsedLastOf ab ench = none)
    (h2 : Scoring.parsedCreationOf (Scoring.woOf ench) = none) :
    Scoring.scoreCore ioc ench ab isp cs t1 = Scoring.scoreCore ioc ench ab isp cs t2 := by
  simp only [Scoring.scoreCore, h1, h2, Option.map_none']

/-- Claim C1 (amended: scoring is a deterministic pure function of the
pair (document, current time); it reads the clock, so two invocations
agree whenever the enrichment carries no parseable timestamp —
`abuseipdb.lastReportedAt`/`abuse_lastReportedAt` and, for domains,
the WHOIS creation date are the only clock-dependent signals). -/
theorem score_time_independent (ioc : Scoring.SIoc) (t1 t2 : ℤ)
    (h1 : Scoring.parsedLastOf ((Scoring.abObjOf (ioc.enrichment.getD [])).getD [])
        (ioc.enrichment.getD []) = none)
    (h2 : Scoring.parsedCreationOf (Scoring.woOf (ioc.enrichment.getD [])) = none) :
    Scoring.score_ioc ioc t1 = Scoring.score_ioc ioc t2 := by
  simp only [Scoring.score_ioc]
  cases hab : Scoring.abObjOf (ioc.enrichment.getD []) with
  | none => simp only [Option.none_bind]
  | some ab =>
    have h1' : Scoring.parsedLastOf ab (ioc.enrichment.getD []) = none := by
      rw [hab] at h1
      exact h1
    simp only [Option.some_bind]
    cases Scoring.ispStr (pyOr (pyGet ab "isp")
        (pyOr (pyGet (ioc.enrichment.getD []) "abuse_isp") (some (.str "")))) with
    | none => simp only [Option.none_bind]
    | some isp =>
      simp only [Option.some_bind]
      cases Scoring.countryStr (ioc.enrichment.getD []) with
      | none => simp only [Option.none_bind]
      | some cs =>
        simp only [Option.some_bind, Option.some.injEq]
        rw [scoreCore_time_indep ioc (ioc.enrichment.getD []) ab isp cs t1 t2 h1' h2]

/-- Witness for C1 (amended) at a timestamp-free concrete IOC. -/
theorem score_time_independent_w :
    Scoring.score_ioc c1wioc 0 = Scoring.score_ioc c1wioc 365 :=
  score_time_independent c1wioc 0 365 rfl rfl

/-- Helper: a lookup on an association list misses iff the key is
absent. -/
theorem aLookup_eq_none_of_not_mem (m : Enr) (k : String) (h : k ∉ m.map Prod.fst) :
    aLookup m k = none := by
  induction m with
  | nil => rfl
  | cons kv t ih =>
    obtain ⟨k', v'⟩ := kv
    simp only [List.map_cons, List.mem_cons, not_or] at h
    simp only [aLookup]
    rw [if_neg (fun hh => h.1 (hh.symm)), ih h.2]

/-- Helper: a successful lookup's key is present. -/
theorem mem_of_aLookup_some (m : Enr) (k : String) (v : EVal) (h : aLookup m k = some v) :
    k ∈ m.map Prod.fst := by
  induction m with
  | nil => exact absurd h (by simp [aLookup])
  | cons kv t ih =>
    obtain ⟨k', v'⟩ := kv
    simp only [aLookup] at h
    by_cases hk : k' = k
    · simp [hk]
    · rw [if_neg hk] at h
      simp only [List.map_cons, List.mem_cons]
      exact Or.inr (ih h)

/-- Helper: a successful lookup returns a stored pair. -/
theorem pair_mem_of_aLookup_some (m : Enr) (k : String) (v : EVal)
    (h : aLookup m k = some v) : (k, v) ∈ m := by
  induction m with
  | nil => exact absurd h (by simp [aLookup])
  | cons kv t ih =>
    obtain ⟨k', v'⟩ := kv
    simp only [aLookup] at h
    by_cases hk : k' = k
    · subst hk
      rw [if_pos rfl] at h
      injection h with h
      subst h
      exact List.mem_cons_self _ _
    · rw [if_neg hk] at h
      exact List.mem_cons_of_mem _ (ih h)

/-- Helper: lookup across an append scans the left list first. -/
theorem aLookup_append (A B : Enr) (k : String) :
    aLookup (A ++ B) k =
      match aLookup A k with
      | some v => some v
      | none => aLookup B k := by
  induction A with
  | nil => simp [aLookup]
  | cons kv t ih =>
    obtain ⟨k', v'⟩ := kv
    by_cases hk : k' = k
    · simp [aLookup, hk]
    · simp only [List.cons_append, aLookup, if_neg hk]
      exact ih

/-- Helper: `d[k] = v` on a dict without the key appends the pair. -/
theorem aSet_of_not_mem (m : Enr) (k : String) (v : EVal) (h : k ∉ m.map Prod.fst) :
    Indexer.aSet m k v = m ++ [(k, v)] := by
  induction m with
  | nil => rfl
  | cons kv t ih =>
    obtain ⟨k', v'⟩ := kv
    simp only [List.map_cons, List.mem_cons, not_or] at h
    simp only [Indexer.aSet]
    rw [if_neg (fun hh => h.1 hh.symm), ih h.2]
    rfl

/-- Helper: merging an observation whose keys are all new appends its
pairs (the field-level `dict.update` branch is never reached). -/
theorem mergeEnrichment_disjoint (A B : Enr)
    (hobj : ∀ kv ∈ B, ∃ fs, kv.2 = EVal.obj fs)
    (hnd : (B.map Prod.fst).Nodup)
    (hd : ∀ k, k ∈ B.map Prod.fst → k ∉ A.map Prod.fst) :
    Indexer.mergeEnrichment A B = A ++ B := by
  induction B generalizing A with
  | nil => simp [Indexer.mergeEnrichment]
  | cons kv t ih =>
    obtain ⟨k, v⟩ := kv
    obtain ⟨fs, hfs⟩ := hobj (k, v) (List.mem_cons_self _ _)
    subst hfs
    simp only [List.map_cons, List.nodup_cons] at hnd
    have hkA : k ∉ A.map Prod.fst := hd k (by simp)
    have hstep : Indexer.mergeEnrichment A ((k, EVal.obj fs) :: t) =
        Indexer.mergeEnrichment (A ++ [(k, EVal.obj fs)]) t := by
      simp only [Indexer.mergeEnrichment, List.foldl_cons]
      rw [aLookup_eq_none_of_not_mem A k hkA, aSet_of_not_mem A k _ hkA]
    rw [hstep, ih (A ++ [(k, EVal.obj fs)])
      (fun kv hkv => hobj kv (List.mem_cons_of_mem _ hkv)) hnd.2 ?_]
    · simp
    · intro k' hk'
      simp only [List.map_append, List.mem_append, List.map_cons, List.mem_singleton, not_or]
      refine ⟨hd k' (by simp [hk']), ?_⟩
      simp only [List.map_cons, List.map_nil, List.mem_singleton]
      intro hcontr
      exact hnd.1 (hcontr ▸ hk')

/-- Helper: `pyGet` respects lookup equality. -/
theorem pyGet_congr (e1 e2 : Enr) (k : String) (h : aLookup e1 k = aLookup e2 k) :
    pyGet e1 k = pyGet e2 k := by
  unfold pyGet
  rw [h]

/-- Helper: append of key-disjoint dicts commutes under lookup. -/
theorem aLookup_append_comm (A B : Enr)
    (hd : ∀ k, k ∈ A.map Prod.fst → k ∉ B.map Prod.fst) (k : String) :
    aLookup (A ++ B) k = aLookup (B ++ A) k := by
  rw [aLookup_append, aLookup_append]
  cases hA : aLookup A k with
  | some v =>
    have : aLookup B k = none :=
      aLookup_eq_none_of_not_mem B k (hd k (mem_of_aLookup_some A k v hA))
    rw [this]
  | none => cases aLookup B k <;> rfl

/-- Helper: `ccSteps` depends only on the lookups it reads. -/
theorem ccSteps_congr (e1 e2 : Enr) (h : ∀ k, aLookup e1 k = aLookup e2 k) :
    Dedup.ccSteps e1 = Dedup.ccSteps e2 := by
  unfold Dedup.ccSteps Dedup.scTerm
  rw [pyGet_congr e1 e2 "geoip" (h "geoip"), pyGet_congr e1 e2 "whois" (h "whois"),
    pyGet_congr e1 e2 "dns" (h "dns"), pyGet_congr e1 e2 "reverse" (h "reverse"),
    h "sources_count"]

/-- Helper: `compute_confidence` depends only on emptiness and the
lookups it reads. -/
theorem compute_confidence_congr (e1 e2 : Enr)
    (hne : e1.isEmpty = e2.isEmpty) (h : ∀ k, aLookup e1 k = aLookup e2 k) :
    Dedup.compute_confidence e1 = Dedup.compute_confidence e2 := by
  unfold Dedup.compute_confidence
  rw [hne, ccSteps_congr e1 e2 h]

/-- Helper: `clusterParts` depends only on the lookups it reads. -/
theorem clusterParts_congr (t v : String) (e1 e2 : Enr)
    (h : ∀ k, aLookup e1 k = aLookup e2 k) :
    Dedup.clusterParts t v e1 = Dedup.clusterParts t v e2 := by
  unfold Dedup.clusterParts
  simp only [show ∀ k, pyGet e1 k = pyGet e2 k from fun k => pyGet_congr e1 e2 k (h k)]

/-- Helper: `make_cluster_id` depends only on the lookups it reads. -/
theorem make_cluster_id_congr (t v : String) (e1 e2 : Enr)
    (h : ∀ k, aLookup e1 k = aLookup e2 k) :
    Dedup.make_cluster_id t v e1 = Dedup.make_cluster_id t v e2 := by
  unfold Dedup.make_cluster_id
  rw [clusterParts_congr t v e1 e2 h]

/-- Helper: under all-dict values, a `pyGet` is a miss or a dict. -/
theorem pyGet_allObj (e : Enr) (he : ∀ kv ∈ e, ∃ fs, kv.2 = EVal.obj fs) (k : String) :
    pyGet e k = none ∨ ∃ fs, pyGet e k = some (EVal.obj fs) := by
  unfold pyGet
  cases hA : aLookup e k with
  | none => exact Or.inl rfl
  | some v =>
    obtain ⟨fs, hfs⟩ := he (k, v) (pair_mem_of_aLookup_some e k v hA)
    subst hfs
    exact Or.inr ⟨fs, rfl⟩

/-- Helper: with all-dict values no access in `compute_confidence`
raises, and the accumulated score is the sum of the per-key terms. -/
theorem ccSteps_sum (e : Enr) (he : ∀ kv ∈ e, ∃ fs, kv.2 = EVal.obj fs) :
    Dedup.ccSteps e = tGeo (pyGet e "geoip") + tWho (pyGet e "whois") +
      tDns (pyGet e "dns") + tRev (pyGet e "reverse") + Dedup.scTerm e := by
  rcases pyGet_allObj e he "geoip" with hg | ⟨g, hg⟩ <;>
    rcases pyGet_allObj e he "whois" with hw | ⟨w, hw⟩ <;>
      rcases pyGet_allObj e he "dns" with hd2 | ⟨d2, hd2⟩ <;>
        rcases pyGet_allObj e he "reverse" with hr | ⟨r, hr⟩ <;>
          simp [Dedup.ccSteps, Dedup.asObjE, Dedup.revStep, tGeo, tWho, tDns, tRev,
            hg, hw, hd2, hr]

/-- Helper: the per-key confidence terms are nonnegative. -/
theorem tTerms_nonneg (o : Option EVal) :
    0 ≤ tGeo o ∧ 0 ≤ tWho o ∧ 0 ≤ tDns o ∧ 0 ≤ tRev o := by
  unfold tGeo tWho tDns tRev
  refine ⟨?_, ?_, ?_, ?_⟩ <;> rcases o with _ | v <;> try norm_num
  all_goals rcases v with _ | n | s | xs | fs <;> try norm_num
  all_goals split <;> norm_num

/-- Helper: without a `sources_count` key the multiple-sources term is
zero. -/
theorem scTerm_of_no_key (e : Enr) (h : "sources_count" ∉ e.map Prod.fst) :
    Dedup.scTerm e = 0 := by
  unfold Dedup.scTerm
  rw [aLookup_eq_none_of_not_mem e _ h]

/-- Helper: a `pyGet` across an append prefers the left dict. -/
theorem pyGet_append (A B : Enr) (k : String) :
    pyGet (A ++ B) k =
      match aLookup A k with
      | some _ => pyGet A k
      | none => pyGet B k := by
  unfold pyGet
  rw [aLookup_append]
  cases aLookup A k <;> rfl

/-- Helper: joining further (key-disjoint, all-dict, no
`sources_count`) observations never lowers `compute_confidence`. -/
theorem compute_confidence_le_append (A B : Enr)
    (hA : obsOK A) (hB : obsOK B)
    (hd : ∀ k, k ∈ A.map Prod.fst → k ∉ B.map Prod.fst) :
    Dedup.compute_confidence A ≤ Dedup.compute_confidence (A ++ B) := by
  have hobjAB : ∀ kv ∈ A ++ B, ∃ fs, kv.2 = EVal.obj fs := by
    intro kv hkv
    rcases List.mem_append.mp hkv with hm | hm
    · exact hA.1 kv hm
    · exact hB.1 kv hm
  have hscAB : "sources_count" ∉ (A ++ B).map Prod.fst := by
    simp only [List.map_append, List.mem_append, not_or]
    exact ⟨hA.2.2, hB.2.2⟩
  have hterm : ∀ k, tGeo (pyGet A k) ≤ tGeo (pyGet (A ++ B) k) ∧
      tWho (pyGet A k) ≤ tWho (pyGet (A ++ B) k) ∧
      tDns (pyGet A k) ≤ tDns (pyGet (A ++ B) k) ∧
      tRev (pyGet A k) ≤ tRev (pyGet (A ++ B) k) := by
    intro k
    rw [pyGet_append]
    cases hAk : aLookup A k with
    | some v => exact ⟨le_refl _, le_refl _, le_refl _, le_refl _⟩
    | none =>
      have h0 : pyGet A k = none := by unfold pyGet; rw [hAk]
      rw [h0]
      have := tTerms_nonneg (pyGet B k)
      exact ⟨this.1, this.2.1, this.2.2.1, this.2.2.2⟩
  have hsum : Dedup.ccSteps A ≤ Dedup.ccSteps (A ++ B) := by
    rw [ccSteps_sum A hA.1, ccSteps_sum (A ++ B) hobjAB,
      scTerm_of_no_key A hA.2.2, scTerm_of_no_key (A ++ B) hscAB]
    have g := hterm "geoip"
    have w := hterm "whois"
    have d := hterm "dns"
    have r := hterm "reverse"
    omega
  have hnn : 0 ≤ Dedup.ccSteps (A ++ B) := by
    rw [ccSteps_sum (A ++ B) hobjAB, scTerm_of_no_key (A ++ B) hscAB]
    have g := tTerms_nonneg (pyGet (A ++ B) "geoip")
    have w := tTerms_nonneg (pyGet (A ++ B) "whois")
    have d := tTerms_nonneg (pyGet (A ++ B) "dns")
    have r := tTerms_nonneg (pyGet (A ++ B) "reverse")
    omega
  unfold Dedup.compute_confidence
  by_cases hAe : A.isEmpty = true
  · rw [if_pos hAe]
    split
    · exact le_refl 0
    · exact le_min (by norm_num) hnn
  · have hABe : ((A ++ B).isEmpty = true) = False := by
      simp only [List.isEmpty_iff] at hAe ⊢
      simp [hAe]
    rw [if_neg hAe, if_neg (by rw [hABe]; exact not_false)]
    exact min_le_min (le_refl 100) hsum

/-- Helper: evaluating upsert-of-`X` (creation) followed by
upsert-of-`Y` (merge) on a store with no prior document for the key. -/
theorem upsert_twice_eval (store : Indexer.Store) (t' v' : String) (s : Option String)
    (X Y : Enr) (now : String)
    (h0 : store (Indexer.docIdOf ⟨some t', some v', s⟩) = none) :
    (Indexer.upsert (Indexer.upsert store ⟨some t', some v', s⟩ (some X) now).2
        ⟨some t', some v', s⟩ (some Y) now).1 =
      some { id := Indexer.docIdOf ⟨some t', some v', s⟩,
             typ := (Dedup.canonicalize ⟨some t', some v', s⟩).typ.getD "",
             value := (Dedup.canonicalize ⟨some t', some v', s⟩).value.getD "",
             first_seen := now, last_seen := now,
             enrichment := Indexer.mergeEnrichment X Y,
             sources_count := max (Indexer.scOf X) (Indexer.scOf Y),
             confidence := max (Dedup.compute_confidence X)
               (Dedup.compute_confidence (Indexer.mergeEnrichment X Y)),
             cluster_id := Dedup.make_cluster_id
               ((Dedup.canonicalize ⟨some t', some v', s⟩).typ.getD "")
               ((Dedup.canonicalize ⟨some t', some v', s⟩).value.getD "")
               (Indexer.mergeEnrichment X Y) } := by
  simp only [Indexer.upsert]
  rw [h0]
  simp only [Indexer.insertStore, Indexer.scOfOpt, Option.getD_some, if_pos rfl, if_true]

/-- Counterexample to C3 as stated: two observations that assign
different non-null values to the same field of the same provider do
not commute — `A` then `B` stores `x = 2` while `B` then `A` stores
`x = 1`, so the final documents differ. -/
theorem upsert_order_divergence_cx :
    ((Indexer.upsert (Indexer.upsert Indexer.emptyStore ioc1 (some obsX1) "T").2
        ioc1 (some obsX2) "T").1.map (fun d => aLookup d.enrichment "abuseipdb")) =
      some (some (.obj [("x", .num 2)])) ∧
    ((Indexer.upsert (Indexer.upsert Indexer.emptyStore ioc1 (some obsX2) "T").2
        ioc1 (some obsX1) "T").1.map (fun d => aLookup d.enrichment "abuseipdb")) =
      some (some (.obj [("x", .num 1)])) ∧
    EVal.obj [("x", .num 2)] ≠ EVal.obj [("x", .num 1)] :=
  ⟨rfl, rfl, by simp⟩

/-- Claim C3 (amended: starting from a store with no document for the
canonical key, two enrichment observations whose provider values are
structured maps, whose provider-key sets are disjoint and without
duplicates, and which do not carry the numeric `sources_count` key,
converge to the same final document — compared extensionally, as
Python `==` compares dicts — in either processing order). -/
theorem upsert_order_convergence (store : Indexer.Store) (ioc : Ioc) (now : String)
    (A B : Enr)
    (ht : ioc.typ.isSome = true) (hv : ioc.value.isSome = true)
    (h0 : store (Indexer.docIdOf ioc) = none)
    (hA : obsOK A) (hB : obsOK B)
    (hd : ∀ k, k ∈ A.map Prod.fst → k ∉ B.map Prod.fst) :
    ((Indexer.upsert (Indexer.upsert store ioc (some A) now).2 ioc (some B) now).1.isSome = true) ∧
    ((Indexer.upsert (Indexer.upsert store ioc (some B) now).2 ioc (some A) now).1.isSome = true) ∧
    Indexer.DocEqv
      ((Indexer.upsert (Indexer.upsert store ioc (some A) now).2 ioc (some B) now).1.getD dfltDoc)
      ((Indexer.upsert (Indexer.upsert store ioc (some B) now).2 ioc (some A) now).1.getD dfltDoc) := by
  obtain ⟨t, v, s⟩ := ioc
  cases t with
  | none => exact absurd ht (by simp)
  | some t' =>
    cases v with
    | none => exact absurd hv (by simp)
    | some v' =>
      have hdBA : ∀ k, k ∈ B.map Prod.fst → k ∉ A.map Prod.fst :=
        fun k hk hk' => hd k hk' hk
      have e1 := upsert_twice_eval store t' v' s A B now h0
      have e2 := upsert_twice_eval store t' v' s B A now h0
      rw [e1, e2]
      have mAB : Indexer.mergeEnrichment A B = A ++ B :=
        mergeEnrichment_disjoint A B hB.1 hB.2.1 hdBA
      have mBA : Indexer.mergeEnrichment B A = B ++ A :=
        mergeEnrichment_disjoint B A hA.1 hA.2.1 hd
      have hlook : ∀ k, aLookup (A ++ B) k = aLookup (B ++ A) k :=
        aLookup_append_comm A B hd
      have hemp : (A ++ B).isEmpty = (B ++ A).isEmpty := by
        cases A <;> cases B <;> simp
      have hcc : Dedup.compute_confidence (A ++ B) = Dedup.compute_confidence (B ++ A) :=
        compute_confidence_congr _ _ hemp hlook
      have hle1 : Dedup.compute_confidence A ≤ Dedup.compute_confidence (A ++ B) :=
        compute_confidence_le_append A B hA hB hd
      have hle2 : Dedup.compute_confidence B ≤ Dedup.compute_confidence (B ++ A) :=
        compute_confidence_le_append B A hB hA hdBA
      refine ⟨rfl, rfl, rfl, rfl, rfl, rfl, rfl, ?_, ?_, ?_⟩
      · show max (Indexer.scOf A) (Indexer.scOf B) = max (Indexer.scOf B) (Indexer.scOf A)
        exact max_comm _ _
      · show max (Dedup.compute_confidence A) (Dedup.compute_confidence (Indexer.mergeEnrichment A B)) =
          max (Dedup.compute_confidence B) (Dedup.compute_confidence (Indexer.mergeEnrichment B A))
        rw [mAB, mBA, max_eq_right hle1, max_eq_right (hcc ▸ hle2), hcc]
      · constructor
        · show Dedup.make_cluster_id _ _ (Indexer.mergeEnrichment A B) =
            Dedup.make_cluster_id _ _ (Indexer.mergeEnrichment B A)
          rw [mAB, mBA]
          exact make_cluster_id_congr _ _ _ _ hlook
        · intro k
          show aLookup (Indexer.mergeEnrichment A B) k = aLookup (Indexer.mergeEnrichment B A) k
          rw [mAB, mBA]
          exact hlook k

/-- Witness for C3 (amended) with a DNS-only and a WHOIS-only
observation on the empty store. -/
theorem upsert_order_convergence_w :
    ((Indexer.upsert (Indexer.upsert Indexer.emptyStore ioc1 (some obsA) "T").2
        ioc1 (some obsB) "T").1.isSome = true) ∧
    ((Indexer.upsert (Indexer.upsert Indexer.emptyStore ioc1 (some obsB) "T").2
        ioc1 (some obsA) "T").1.isSome = true) ∧
    Indexer.DocEqv
      ((Indexer.upsert (Indexer.upsert Indexer.emptyStore ioc1 (some obsA) "T").2
          ioc1 (some obsB) "T").1.getD dfltDoc)
      ((Indexer.upsert (Indexer.upsert Indexer.emptyStore ioc1 (some obsB) "T").2
          ioc1 (some obsA) "T").1.getD dfltDoc) :=
  upsert_order_convergence Indexer.emptyStore ioc1 "T" obsA obsB rfl rfl rfl
    ⟨by rintro kv hkv; simp only [obsA, List.mem_singleton] at hkv; subst hkv; exact ⟨_, rfl⟩,
     by decide, by decide⟩
    ⟨by rintro kv hkv; simp only [obsB, List.mem_singleton] at hkv; subst hkv; exact ⟨_, rfl⟩,
     by decide, by decide⟩
    (by intro k hk hk'; simp [obsA] at hk; simp [obsB] at hk'; rw [hk] at hk'; exact absurd hk' (by decide))

/-- Helper: the ASCII lowering of a character is lowering-fixed. -/
theorem lowerChar_idem (c : Char) : lowerChar (lowerChar c) = lowerChar c := by
  unfold lowerChar
  split
  · rename_i hc
    have ht : (Char.ofNatAux (c.toNat + 32)
        (by unfold Nat.isValidChar; left; omega)).toNat = c.toNat + 32 := rfl
    rw [dif_neg]
    omega
  · rfl

/-- Helper: `s.lower()` is idempotent. -/
theorem pyLower_idem (s : String) : pyLower (pyLower s) = pyLower s := by
  unfold pyLower
  refine congrArg String.mk ?_
  rw [List.map_map]
  exact List.map_congr_left (fun c _ => lowerChar_idem c)

/-- Helper: characters of a lowered string are lowering-fixed. -/
theorem lower_fixed_of_mem (s : String) (c : Char) (hc : c ∈ (pyLower s).data) :
    lowerChar c = c := by
  unfold pyLower at hc
  simp only [List.mem_map] at hc
  obtain ⟨c0, _, hc0⟩ := hc
  rw [← hc0]
  exact lowerChar_idem c0

/-- Helper: trimming is the identity on lists whose ends do not
satisfy the predicate. -/
theorem trimBy_eq_self (p : Char → Bool) (l : List Char)
    (h1 : ∀ h : l ≠ [], p (l.head h) = false)
    (h2 : ∀ h : l ≠ [], p (l.getLast h) = false) :
    trimBy p l = l := by
  rcases l with _ | ⟨a, t⟩
  · rfl
  · have hne : (a :: t) ≠ [] := by simp
    have d1 : (a :: t).dropWhile p = a :: t := by
      have ha := h1 hne
      rw [List.head_cons] at ha
      rw [List.dropWhile_cons, if_neg]
      simp [ha]
    have hrne : (a :: t).reverse ≠ [] := by simp
    have d2 : (a :: t).reverse.dropWhile p = (a :: t).reverse := by
      rcases hrev : (a :: t).reverse with _ | ⟨b, rb⟩
      · exact absurd hrev (by simp)
      · have hb : p b = false := by
          have e1 := List.head?_reverse (a :: t)
          rw [hrev, List.head?_cons, List.getLast?_eq_getLast_of_ne_nil hne] at e1
          injection e1 with e2
          rw [e2]
          exact h2 hne
        rw [List.dropWhile_cons, if_neg (by simp [hb])]
    unfold trimBy
    rw [d1, d2, List.reverse_reverse]

/-- Helper: a trimmed list's ends do not satisfy the predicate. -/
theorem trimBy_edges (p : Char → Bool) (l : List Char) :
    (∀ h : trimBy p l ≠ [], p ((trimBy p l).head h) = false) ∧
    (∀ h : trimBy p l ≠ [], p ((trimBy p l).getLast h) = false) := by
  constructor
  · intro h
    -- head of w.reverse = getLast of w, where w is a dropWhile-suffix
    have hwne : ((l.dropWhile p).reverse.dropWhile p) ≠ [] := by
      intro he
      apply h
      unfold trimBy
      rw [he]
      rfl
    have hmne : (l.dropWhile p).reverse ≠ [] := by
      intro he
      apply hwne
      rw [he]
      rfl
    have hdne : l.dropWhile p ≠ [] := by
      intro he
      apply hmne
      rw [he]
      rfl
    obtain ⟨pre, hpre⟩ := List.dropWhile_suffix (l := (l.dropWhile p).reverse) p
    have e : (trimBy p l).head? = (l.dropWhile p).head? := by
      unfold trimBy
      rw [List.head?_reverse, ← List.getLast?_append_of_ne_nil pre hwne, hpre,
        List.getLast?_reverse]
    rw [List.head?_eq_head (l := trimBy p l) h,
      List.head?_eq_head (l := l.dropWhile p) hdne] at e
    injection e with e2
    rw [e2]
    exact List.head_dropWhile_not p l hdne
  · intro h
    have hwne : ((l.dropWhile p).reverse.dropWhile p) ≠ [] := by
      intro he
      apply h
      unfold trimBy
      rw [he]
      rfl
    have hh : (trimBy p l).getLast h =
        ((l.dropWhile p).reverse.dropWhile p).head hwne := by
      unfold trimBy
      exact List.getLast_reverse _
    rw [hh]
    exact List.head_dropWhile_not p _ hwne

/-- Helper: trimming is idempotent. -/
theorem trimBy_idem (p : Char → Bool) (l : List Char) :
    trimBy p (trimBy p l) = trimBy p l :=
  trimBy_eq_self p _ (trimBy_edges p l).1 (trimBy_edges p l).2

/-- Helper: `s.strip()` is idempotent. -/
theorem pyStrip_idem (s : String) : pyStrip (pyStrip s) = pyStrip s := by
  unfold pyStrip
  exact congrArg String.mk (trimBy_idem isPyWs s.data)

/-- Helper: trimming keeps only characters of the input. -/
theorem trimBy_subset (p : Char → Bool) (l : List Char) : trimBy p l ⊆ l := by
  intro c hc
  unfold trimBy at hc
  rw [List.mem_reverse] at hc
  have hc2 := (List.dropWhile_suffix p).subset hc
  rw [List.mem_reverse] at hc2
  exact (List.dropWhile_suffix p).subset hc2

/-- Helper: the domain normalization's output never contains `:`. -/
theorem domCanonVal_no_colon (val : String) : ':' ∉ (Dedup.domCanonVal val).data := by
  unfold Dedup.domCanonVal
  by_cases hc : ':' ∈ (Dedup.domPreColon val).data
  · rw [if_pos hc]
    intro hmem
    have := List.mem_takeWhile_imp hmem
    simp at this
  · rw [if_neg hc]
    exact hc

/-- Helper: `urlparse`'s netloc/path keeps only input characters. -/
theorem urlNetlocOrPath_subset (v : String) (x : Char)
    (hx : x ∈ (Dedup.urlNetlocOrPath v).data) : x ∈ v.data := by
  unfold Dedup.urlNetlocOrPath at hx
  split at hx
  · exact hx
  · split at hx
    · exact List.drop_subset _ _ ((List.takeWhile_prefix _).subset hx)
    · exact List.drop_subset _ _ ((List.takeWhile_prefix _).subset hx)

/-- Helper: the pre-colon domain value keeps only characters of the
lowered input. -/
theorem domPreColon_subset (val : String) (x : Char)
    (hx : x ∈ (Dedup.domPreColon val).data) : x ∈ (pyLower val).data := by
  unfold Dedup.domPreColon at hx
  have hx2 := trimBy_subset _ _ hx
  split at hx2
  · exact trimBy_subset _ _ (urlNetlocOrPath_subset _ _ hx2)
  · exact trimBy_subset _ _ hx2

/-- Helper: the domain normalization only keeps characters of the
lowered input. -/
theorem domCanonVal_subset (val : String) (c : Char)
    (hc : c ∈ (Dedup.domCanonVal val).data) : c ∈ (pyLower val).data := by
  unfold Dedup.domCanonVal at hc
  split at hc
  · exact domPreColon_subset val c ((List.takeWhile_prefix _).subset hc)
  · exact domPreColon_subset val c hc

/-- Helper: the domain normalization fixes any string that is already
lowered, has no `:` and has no strippable end characters. -/
theorem domCanonVal_fix (w : String) (hs : domSafe w = true) (hnc : ':' ∉ w.data)
    (hlf : ∀ c ∈ w.data, lowerChar c = c) : Dedup.domCanonVal w = w := by
  obtain ⟨l⟩ := w
  rcases l with _ | ⟨a, t⟩
  · rfl
  · have hne : (a :: t) ≠ [] := by simp
    have hdata : (⟨a :: t⟩ : String).data = a :: t := rfl
    unfold domSafe at hs
    rw [hdata] at hs hnc hlf
    simp only [List.isEmpty_cons, Bool.false_or, Bool.and_eq_true,
      Bool.not_eq_true'] at hs
    have hheadD : (a :: t).headD 'a' = (a :: t).head hne := rfl
    have hlastD : (a :: t).getLastD 'a' = (a :: t).getLast hne := by
      rw [List.getLastD_eq_getLast?, List.getLast?_eq_getLast_of_ne_nil hne]
      rfl
    have hHead : badEdge ((a :: t).head hne) = false := by rw [← hheadD]; exact hs.1
    have hLast : badEdge ((a :: t).getLast hne) = false := by rw [← hlastD]; exact hs.2
    have hHead' : isPyWs ((a :: t).head hne) = false ∧ (a :: t).head hne ≠ '/' := by
      have := hHead
      unfold badEdge at this
      simpa using this
    have hLast' : isPyWs ((a :: t).getLast hne) = false ∧ (a :: t).getLast hne ≠ '/' := by
      have := hLast
      unfold badEdge at this
      simpa using this
    have hlw : pyLower ⟨a :: t⟩ = ⟨a :: t⟩ := by
      unfold pyLower
      rw [hdata]
      refine congrArg String.mk ?_
      rw [List.map_congr_left hlf, List.map_id']
    have hstrip : pyStrip ⟨a :: t⟩ = ⟨a :: t⟩ := by
      unfold pyStrip
      rw [hdata]
      refine congrArg String.mk ?_
      refine trimBy_eq_self isPyWs _ (fun h => ?_) (fun h => ?_)
      · exact hHead'.1
      · exact hLast'.1
    have hslash : stripSlashSpace ⟨a :: t⟩ = ⟨a :: t⟩ := by
      unfold stripSlashSpace
      rw [hdata]
      refine congrArg String.mk ?_
      refine trimBy_eq_self _ _ (fun h => ?_) (fun h => ?_)
      · simp only [decide_eq_false_iff_not, not_or]
        refine ⟨hHead'.2, ?_⟩
        intro hsp
        have := hHead'.1
        rw [hsp] at this
        simp [isPyWs] at this
      · simp only [decide_eq_false_iff_not, not_or]
        refine ⟨hLast'.2, ?_⟩
        intro hsp
        have := hLast'.1
        rw [hsp] at this
        simp [isPyWs] at this
    have hpre : ¬("http://".data.isPrefixOf (⟨a :: t⟩ : String).data = true ∨
        "https://".data.isPrefixOf (⟨a :: t⟩ : String).data = true) := by
      rintro (hp | hp)
      · exact hnc ((List.isPrefixOf_iff_prefix.mp hp).subset (by decide))
      · exact hnc ((List.isPrefixOf_iff_prefix.mp hp).subset (by decide))
    unfold Dedup.domCanonVal Dedup.domPreColon
    rw [hlw, hstrip, if_neg hpre, hslash, if_neg hnc]

/-- Helper: parsed octets are bounded by 255. -/
theorem parseOctet_le (l : List Char) (n : ℕ) (h : Dedup.parseOctet l = some n) :
    n ≤ 255 := by
  unfold Dedup.parseOctet at h
  split_ifs at h with h1 h2 h3 h4
  by_cases h5 : List.foldl (fun a c => 10 * a + (c.toNat - 48)) 0 l ≤ 255
  · simp only [if_pos h5] at h
    injection h with h
    omega
  · simp only [if_neg h5] at h
    injection h

set_option maxRecDepth 8192 in
/-- Helper: octet parse/render round-trip, by exhaustive check. -/
theorem parseOctet_renderOctet :
    ∀ i : Fin 256, Dedup.parseOctet (Dedup.renderOctet i.val) = some i.val := by decide

set_option maxRecDepth 8192 in
/-- Helper: renderings of octets contain no dot. -/
theorem dot_not_mem_renderOctet :
    ∀ i : Fin 256, '.' ∉ Dedup.renderOctet i.val := by decide

/-- Helper: splitting a list without the separator is the singleton. -/
theorem splitOnChar_of_not_mem (sep : Char) (l : List Char) (h : sep ∉ l) :
    Dedup.splitOnChar sep l = [l] := by
  induction l with
  | nil => rfl
  | cons c t ih =>
    simp only [List.mem_cons, not_or] at h
    simp only [Dedup.splitOnChar, if_neg (h.1 ∘ Eq.symm), ih h.2]

/-- Helper: splitting peels a separator-free prefix. -/
theorem splitOnChar_append (sep : Char) (A rest : List Char) (h : sep ∉ A) :
    Dedup.splitOnChar sep (A ++ sep :: rest) = A :: Dedup.splitOnChar sep rest := by
  induction A with
  | nil =>
    simp only [List.nil_append]
    simp [Dedup.splitOnChar]
  | cons c t ih =>
    simp only [List.mem_cons, not_or] at h
    simp only [List.cons_append]
    simp only [Dedup.splitOnChar, if_neg (h.1 ∘ Eq.symm), ih h.2]

/-- Helper: IPv4 parse/render round-trip on in-range quadruples. -/
theorem parseIPv4_renderIPv4 (a b c d : ℕ)
    (ha : a ≤ 255) (hb : b ≤ 255) (hc : c ≤ 255) (hd : d ≤ 255) :
    Dedup.parseIPv4 (Dedup.renderIPv4 (a, b, c, d)) = some (a, b, c, d) := by
  have ra : Dedup.parseOctet (Dedup.renderOctet a) = some a := by
    simpa using parseOctet_renderOctet ⟨a, by omega⟩
  have rb : Dedup.parseOctet (Dedup.renderOctet b) = some b := by
    simpa using parseOctet_renderOctet ⟨b, by omega⟩
  have rc : Dedup.parseOctet (Dedup.renderOctet c) = some c := by
    simpa using parseOctet_renderOctet ⟨c, by omega⟩
  have rd : Dedup.parseOctet (Dedup.renderOctet d) = some d := by
    simpa using parseOctet_renderOctet ⟨d, by omega⟩
  have na : '.' ∉ Dedup.renderOctet a := by
    simpa using dot_not_mem_renderOctet ⟨a, by omega⟩
  have nb : '.' ∉ Dedup.renderOctet b := by
    simpa using dot_not_mem_renderOctet ⟨b, by omega⟩
  have nc : '.' ∉ Dedup.renderOctet c := by
    simpa using dot_not_mem_renderOctet ⟨c, by omega⟩
  have nd : '.' ∉ Dedup.renderOctet d := by
    simpa using dot_not_mem_renderOctet ⟨d, by omega⟩
  unfold Dedup.parseIPv4 Dedup.renderIPv4
  rw [show (⟨Dedup.renderOctet a ++ '.' :: (Dedup.renderOctet b ++ '.' ::
      (Dedup.renderOctet c ++ '.' :: Dedup.renderOctet d))⟩ : String).data =
    Dedup.renderOctet a ++ '.' :: (Dedup.renderOctet b ++ '.' ::
      (Dedup.renderOctet c ++ '.' :: Dedup.renderOctet d)) from rfl]
  rw [splitOnChar_append '.' _ _ na, splitOnChar_append '.' _ _ nb,
    splitOnChar_append '.' _ _ nc, splitOnChar_of_not_mem '.' _ nd]
  simp only [Dedup.parseQuad, ra, rb, rc, rd, Option.some_bind]

/-- Helper: a rendered IPv4 address is never the empty string. -/
theorem renderIPv4_ne_empty (q : ℕ × ℕ × ℕ × ℕ) : Dedup.renderIPv4 q ≠ "" := by
  obtain ⟨a, b, c, d⟩ := q
  unfold Dedup.renderIPv4
  intro h
  have h2 : (Dedup.renderOctet a ++ '.' :: (Dedup.renderOctet b ++ '.' ::
      (Dedup.renderOctet c ++ '.' :: Dedup.renderOctet d))) = ([] : List Char) :=
    congrArg String.data h
  simp at h2

/-- Helper: a successful IPv4 parse yields in-range octets. -/
theorem parseIPv4_bounds (s : String) (a b c d : ℕ)
    (h : Dedup.parseIPv4 s = some (a, b, c, d)) :
    a ≤ 255 ∧ b ≤ 255 ∧ c ≤ 255 ∧ d ≤ 255 := by
  unfold Dedup.parseIPv4 at h
  rcases hps : Dedup.splitOnChar '.' s.data with _ | ⟨p1, _ | ⟨p2, _ | ⟨p3, _ | ⟨p4, _ | ⟨p5, t5⟩⟩⟩⟩⟩ <;>
    rw [hps] at h
  · exact absurd h (by simp [Dedup.parseQuad])
  · exact absurd h (by simp [Dedup.parseQuad])
  · exact absurd h (by simp [Dedup.parseQuad])
  · exact absurd h (by simp [Dedup.parseQuad])
  · simp only [Dedup.parseQuad, Option.bind_eq_some,
      Option.some.injEq] at h
    obtain ⟨a', ha', b', hb', c', hc', d', hd', heq⟩ := h
    simp only [Prod.mk.injEq] at heq
    obtain ⟨rfl, rfl, rfl, rfl⟩ := heq
    exact ⟨parseOctet_le _ _ ha', parseOctet_le _ _ hb',
      parseOctet_le _ _ hc', parseOctet_le _ _ hd'⟩
  · exact absurd h (by simp [Dedup.parseQuad])

/-- Helper: `canonicalize` on a present, non-empty value reduces to
the source's `if typ == ...` chain. -/
theorem canonicalize_some (t : Option String) (val : String) (s : Option String)
    (hv : val ≠ "") :
    Dedup.canonicalize ⟨t, some val, s⟩ =
      (if t = some "domain" then ⟨some "domain", some (Dedup.domCanonVal val), s⟩
       else if t = some "ip" then
         (match Dedup.parseIPv4 val with
          | some q => ⟨some "ip", some (Dedup.renderIPv4 q), s⟩
          | none => ⟨t, some val, s⟩)
       else if t = some "hash" then ⟨some "hash", some (pyLower val), s⟩
       else ⟨t, some (pyStrip val), s⟩) := by
  unfold Dedup.canonicalize
  dsimp only
  rw [if_neg hv]

/-- Counterexample to C5 as stated: for the domain indicator with
value `"a/:x"`, one canonicalization yields `"a/"` (the port cut
re-exposes a trailing slash), and a second canonicalization strips it
to `"a"`, so `canon(canon(x)) ≠ canon(x)`. -/
theorem canonicalize_idempotence_cx :
    Dedup.canonicalize (Dedup.canonicalize ⟨some "domain", some "a/:x", none⟩) ≠
      Dedup.canonicalize ⟨some "domain", some "a/:x", none⟩ := by decide

/-- Claim C5 (amended): `canonicalize` is total (never raises —
unparsable IPs and unknown types pass through) and idempotent on
every indicator whose canonical domain value does not begin or end in
a strippable character (whitespace or `/`); non-domain indicators
carry no side condition. -/
theorem canonicalize_idem (ioc : Ioc) (h : idemOK ioc) :
    Dedup.canonicalize (Dedup.canonicalize ioc) = Dedup.canonicalize ioc := by
  obtain ⟨t, v, s⟩ := ioc
  rcases v with _ | val
  · rfl
  by_cases hv : val = ""
  · subst hv
    rfl
  by_cases hd : t = some "domain"
  · subst hd
    have hs : domSafe (Dedup.domCanonVal val) = true := by
      have h2 := h rfl
      rw [canonicalize_some _ _ _ hv, if_pos rfl] at h2
      exact h2
    rw [canonicalize_some _ _ _ hv, if_pos rfl]
    by_cases hz : Dedup.domCanonVal val = ""
    · rw [hz]
      rfl
    · rw [canonicalize_some _ _ _ hz, if_pos rfl,
        domCanonVal_fix _ hs (domCanonVal_no_colon val)
          (fun c hc => lower_fixed_of_mem val c (domCanonVal_subset val c hc))]
  by_cases hip : t = some "ip"
  · subst hip
    rcases hps : Dedup.parseIPv4 val with _ | ⟨qa, qb, qc, qd⟩
    · have hr : Dedup.canonicalize ⟨some "ip", some val, s⟩ =
          ⟨some "ip", some val, s⟩ := by
        rw [canonicalize_some _ _ _ hv, if_neg (by decide), if_pos rfl, hps]
      rw [hr]
      exact hr
    · have hb := parseIPv4_bounds val qa qb qc qd hps
      have hr : Dedup.canonicalize ⟨some "ip", some val, s⟩ =
          ⟨some "ip", some (Dedup.renderIPv4 (qa, qb, qc, qd)), s⟩ := by
        rw [canonicalize_some _ _ _ hv, if_neg (by decide), if_pos rfl, hps]
      rw [hr]
      rw [canonicalize_some _ _ _ (renderIPv4_ne_empty _), if_neg (by decide), if_pos rfl,
        parseIPv4_renderIPv4 qa qb qc qd hb.1 hb.2.1 hb.2.2.1 hb.2.2.2]
  by_cases hh : t = some "hash"
  · subst hh
    have hr : Dedup.canonicalize ⟨some "hash", some val, s⟩ =
        ⟨some "hash", some (pyLower val), s⟩ := by
      rw [canonicalize_some _ _ _ hv, if_neg (by decide), if_neg (by decide), if_pos rfl]
    rw [hr]
    by_cases hz : pyLower val = ""
    · rw [hz]
      rfl
    · rw [canonicalize_some _ _ _ hz, if_neg (by decide), if_neg (by decide), if_pos rfl,
        pyLower_idem]
  · have hr : Dedup.canonicalize ⟨t, some val, s⟩ = ⟨t, some (pyStrip val), s⟩ := by
      rw [canonicalize_some _ _ _ hv, if_neg hd, if_neg hip, if_neg hh]
    rw [hr]
    by_cases hz : pyStrip val = ""
    · rw [hz]
      rfl
    · rw [canonicalize_some _ _ _ hz, if_neg hd, if_neg hip, if_neg hh, pyStrip_idem]

/-- Witness for C5 at concrete inputs of each kind: a well-formed
domain, an IP, a hash and an unknown type. -/
theorem canonicalize_idem_w :
    idemOK ⟨some "domain", some "HTTP://ExAmple.COM:8080/p", none⟩ ∧
      Dedup.canonicalize (Dedup.canonicalize
          ⟨some "domain", some "HTTP://ExAmple.COM:8080/p", none⟩) =
        Dedup.canonicalize ⟨some "domain", some "HTTP://ExAmple.COM:8080/p", none⟩ ∧
      Dedup.canonicalize (Dedup.canonicalize ⟨some "ip", some "046.1.2.3", none⟩) =
        Dedup.canonicalize ⟨some "ip", some "046.1.2.3", none⟩ ∧
      Dedup.canonicalize (Dedup.canonicalize ⟨none, some "  x ", none⟩) =
        Dedup.canonicalize ⟨none, some "  x ", none⟩ :=
  ⟨fun _ => by decide,
    canonicalize_idem ⟨some "domain", some "HTTP://ExAmple.COM:8080/p", none⟩ (fun _ => by decide),
    canonicalize_idem ⟨some "ip", some "046.1.2.3", none⟩ (by simp [idemOK]),
    canonicalize_idem ⟨none, some "  x ", none⟩ (by simp [idemOK])⟩
